import Mathlib

/-!
# paketo-buildpacks/build-system: build orchestration and artifact resolution

A shallow embedding of `system/application.go` and `system/build.go`.

Conventions of the embedding.

* A Go function returning `(T, error)` becomes a function into `Except Error T`;
  a Go function with side effects additionally threads a `World`.
* Calls into the operating system and into libraries that are not part of this
  repository (`os`, `path/filepath.Glob`, `archive/zip`, `magiconair/properties`,
  `go-shellwords`, libpak `sherpa`, `crush`, `effect`) are fields of `Platform`
  or of the value that carries them in Go (`Application.Executor`).
* Every call to such a collaborator that a property talks about is recorded in
  `World.trace`, in call order.
* Layer directories are kept apart from the application directory: the
  application directory is the tree `FS.app`, files of layer directories are in
  `FS.layers`, keyed by their path.
* Logging is not modelled.
-/

set_option linter.dupNamespace false

namespace BuildSystem

/-! ## Errors -/

/-- Go error values: either produced by a collaborator or by `fmt.Errorf` without
a cause (`leaf`), or an `fmt.Errorf` whose format ends in `%w` (`wrap`). -/
inductive Error where
  | leaf (msg : String)
  | wrap (msg : String) (cause : Error)
  deriving Repr, DecidableEq

/-- The text of `err.Error()`. -/
def Error.message : Error → String
  | .leaf m => m
  | .wrap m c => m ++ c.message

/-! ## Strings, slices and paths -/

/-- Rendering of a `[]string` by the verb `%s` of `fmt`. -/
def fmtStrings (xs : List String) : String :=
  "[" ++ String.intercalate " " xs ++ "]"

/-- Lexicographic comparison `a <= b` of two character sequences. -/
def charsLe : List Char → List Char → Bool
  | [], _ => true
  | _ :: _, [] => false
  | a :: as, b :: bs =>
    if a.toNat < b.toNat then true
    else if b.toNat < a.toNat then false
    else charsLe as bs

/-- Go string comparison `a <= b`. -/
def stringLe (a b : String) : Bool :=
  charsLe a.toList b.toList

/-- Insertion into an ascending list of strings. -/
def insertString (x : String) : List String → List String
  | [] => [x]
  | y :: ys => if stringLe x y then x :: y :: ys else y :: insertString x ys

/-- The result of `sort.Strings`: the strings in ascending order. -/
def sortStrings : List String → List String
  | [] => []
  | x :: xs => insertString x (sortStrings xs)

/-- Whether a list of strings is in ascending order. -/
def stringsSorted : List String → Bool
  | [] => true
  | [_] => true
  | x :: y :: rest => stringLe x y && stringsSorted (y :: rest)

/-- Split a character sequence at every `/`. -/
def splitSlash : List Char → List (List Char)
  | [] => [[]]
  | c :: cs =>
    match splitSlash cs with
    | [] => [[]]
    | seg :: segs => if c = '/' then [] :: seg :: segs else (c :: seg) :: segs

/-- Split a character sequence at every blank. -/
def splitBlank : List Char → List (List Char)
  | [] => [[]]
  | c :: cs =>
    match splitBlank cs with
    | [] => [[]]
    | seg :: segs => if c = ' ' then [] :: seg :: segs else (c :: seg) :: segs

/-- The element-wise pass of `filepath.Clean`: `ups` counts the `..` elements kept
at the front of a relative path, `acc` holds the kept names, innermost first. -/
def cleanElems (rooted : Bool) : List (List Char) → Nat → List (List Char) → List (List Char)
  | [], ups, acc => List.replicate ups ['.', '.'] ++ acc.reverse
  | e :: es, ups, acc =>
    if e = [] ∨ e = ['.'] then cleanElems rooted es ups acc
    else if e = ['.', '.'] then
      match acc with
      | _ :: acc1 => cleanElems rooted es ups acc1
      | [] => if rooted then cleanElems rooted es ups [] else cleanElems rooted es (ups + 1) []
    else cleanElems rooted es ups (e :: acc)

/-- Go `filepath.Clean` on a slash-separated path. -/
def filepathClean (path : String) : String :=
  if path = "" then "."
  else
    let rooted := path.toList.head? = some '/'
    let elems := cleanElems rooted (splitSlash path.toList) 0 []
    let body := String.intercalate "/" (elems.map String.mk)
    if rooted then "/" ++ body
    else if body = "" then "." else body

/-- Go `filepath.Join`: empty elements are ignored, the rest is joined with `/`
and cleaned; the result is empty when every element is empty. -/
def filepathJoin (elem : List String) : String :=
  match elem.filter (fun e => e ≠ "") with
  | [] => ""
  | es => filepathClean (String.intercalate "/" es)

/-! ## The world outside the program -/

/-- File contents. -/
abbrev Bytes := List Nat

/-- A node of the application directory tree. -/
inductive Node where
  | file (data : Bytes)
  | dir (children : List (String × Node))

/-- The entries directly under a directory, by name. -/
abbrev Dir := List (String × Node)

/-- The file system: the tree under the application path and the regular files
under layer directories. -/
structure FS where
  app : Dir
  layers : List (String × Bytes)

/-- The value of `effect.Execution` (the two writers are log sinks). -/
structure Execution where
  Command : String
  Args : List String
  Dir : String
  deriving Repr, DecidableEq

/-- Calls to collaborators, as recorded in the trace. -/
inductive Event where
  | glob (file : String)
  | zipOpenReader (path : String)
  | execute (e : Execution)
  | resetLayer (path : String)
  | readDir (path : String)
  | removeAll (path : String)
  | openFile (path : String)
  | copyFile (dst : String)
  | extractZip (src dst : String)
  | fileListing (path : String)
  | stat (path : String)
  | distributionLayer
  deriving Repr, DecidableEq

/-- The state threaded through effectful code. -/
structure World where
  fs : FS
  trace : List Event

/-- Append an event to the trace. -/
def World.log (w : World) (e : Event) : World :=
  { w with trace := w.trace ++ [e] }

/-- An entry of a zip archive as `archive/zip` presents it: `Open` is the outcome
of `f.Open()`, and when that succeeds, the outcome of `ioutil.ReadAll` on it. -/
structure ZipFile where
  Name : String
  IsDir : Bool
  Open : Except Error (Except Error Bytes)

/-- The outcome of `os.Stat` as far as the program distinguishes it. -/
inductive StatResult where
  | found
  | notExist
  | failed (err : Error)

/-- An element of a `sherpa.NewFileListing` result. -/
structure FileEntry where
  Path : String
  Mode : String
  ModificationTime : String
  Size : Nat
  deriving Repr, DecidableEq

/-- The collaborators reached through package-level functions. -/
structure Platform where
  /-- The function `os.LookupEnv`. -/
  LookupEnv : String → Option String
  /-- The function `filepath.Glob`, reading the application directory. -/
  Glob : Dir → String → Except Error (List String)
  /-- The function `zip.OpenReader` and the entries of the opened archive. -/
  ZipOpenReader : Dir → String → Except Error (List ZipFile)
  /-- The function `properties.Load`. -/
  PropertiesLoad : Bytes → Except Error (List (String × String))
  /-- The function `shellwords.Parse`. -/
  ShellwordsParse : String → Except Error (List String)
  /-- The function `os.Open` on a path below the application directory, with the bytes read from it. -/
  OpenArtifact : Dir → String → Except Error Bytes
  /-- The method `crush.Crush.ExtractZip` with no stripped components: the directory after expanding the archive into it. -/
  ExtractZip : Bytes → Dir → Except Error Dir
  /-- The function `sherpa.NewFileListing`. -/
  NewFileListing : Dir → String → Except Error (List FileEntry)
  /-- The function `os.Stat`. -/
  Stat : Dir → String → StatResult
  /-- The error of `ioutil.ReadDir` on a path, if it fails. -/
  ReadDirError : String → Option Error
  /-- The error of `os.RemoveAll` on a path, if it fails. -/
  RemoveAllError : String → Option Error
  /-- The error of `sherpa.CopyFile` to a destination, if it fails. -/
  CopyFileError : String → Option Error
  /-- The executor `effect.NewExecutor()` returns: the error of `Execute`, if any, and the file system the command left behind. -/
  Executor : Execution → FS → Option Error × FS

/-! ## `system/application.go` -/

/-- Layer metadata, a Go `map[string]interface{}` holding file listings: the
entries of the map in ascending order of their keys, so that `reflect.DeepEqual`
on two maps is equality of the lists. -/
abbrev Metadata := List (String × List FileEntry)

/-- The value of `libcnb.Layer` (the zero value is `Layer.zero`). -/
structure Layer where
  Path : String
  Build : Bool
  Cache : Bool
  Launch : Bool
  Metadata : Metadata

/-- The Go zero value `libcnb.Layer{}`. -/
def Layer.zero : Layer :=
  { Path := "", Build := false, Cache := false, Launch := false, Metadata := [] }

/-- The struct `Application`. `ExpectedMetadata` is the expected metadata of its
`libpak.LayerContributor`; `Executor` returns the error of `Execute`, if any, and
the file system the command left behind. -/
structure Application where
  ApplicationPath : String
  Command : String
  DefaultArguments : List String
  DefaultTarget : String
  Executor : Execution → FS → Option Error × FS
  ExpectedMetadata : Metadata

/-- The method `Application.Name`. -/
def Application.Name (_a : Application) : String := "application"

/-- The method `Application.interestingEntry`. -/
def Application.interestingEntry (P : Platform) (_a : Application) (f : ZipFile) :
    Except Error Bool :=
  if f.Name = "WEB-INF/" ∧ f.IsDir = true then .ok true
  else if f.Name = "META-INF/MANIFEST.MF" then
    match f.Open with
    | .error err => .error (.wrap ("unable to open " ++ f.Name ++ ": ") err)
    | .ok m =>
      match m with
      | .error err => .error (.wrap ("unable to read " ++ f.Name ++ ": ") err)
      | .ok b =>
        match P.PropertiesLoad b with
        | .error err => .error (.wrap ("unable to parse properties in " ++ f.Name ++ ": ") err)
        | .ok p => if (p.lookup "Main-Class").isSome then .ok true else .ok false
  else .ok false

/-- The loop over `z.File` in `Application.interestingFile`. -/
def Application.interestingEntries (P : Platform) (a : Application) (path : String) :
    List ZipFile → Except Error Bool
  | [] => .ok false
  | f :: fs =>
    match a.interestingEntry P f with
    | .error err =>
      .error (.wrap ("unable to investigate entry " ++ path ++ "/" ++ f.Name ++ ": ") err)
    | .ok true => .ok true
    | .ok false => Application.interestingEntries P a path fs

/-- The method `Application.interestingFile`. -/
def Application.interestingFile (P : Platform) (a : Application) (path : String) (w : World) :
    Except Error Bool × World :=
  let w1 := w.log (.zipOpenReader path)
  match P.ZipOpenReader w.fs.app path with
  | .error err => (.error (.wrap ("unable to open " ++ path ++ ": ") err), w1)
  | .ok files => (a.interestingEntries P path files, w1)

/-- The pattern computed at the start of `Application.ResolveArtifact`. -/
def Application.resolvePattern (P : Platform) (a : Application) : String :=
  let pattern := a.DefaultTarget
  let pattern :=
    match P.LookupEnv "BP_BUILT_MODULE" with
    | some s => filepathJoin [s, pattern]
    | none => pattern
  let pattern :=
    match P.LookupEnv "BP_BUILT_ARTIFACT" with
    | some s => s
    | none => pattern
  pattern

/-- The loop over `candidates` in `Application.ResolveArtifact`; `artifacts` is
the slice collected so far. -/
def Application.investigate (P : Platform) (a : Application) :
    List String → List String → World → Except Error (List String) × World
  | [], artifacts, w => (.ok artifacts, w)
  | c :: cs, artifacts, w =>
    match a.interestingFile P c w with
    | (.error err, w1) => (.error (.wrap ("unable to investigate " ++ c ++ ": ") err), w1)
    | (.ok ok, w1) =>
      Application.investigate P a cs (if ok then artifacts ++ [c] else artifacts) w1

/-- The error built when the candidates do not single out one artifact. -/
def artifactNotFound (pattern : String) (candidates : List String) : Error :=
  .leaf ("unable to find built artifact (executable JAR or WAR) in " ++ pattern
    ++ ", candidates: " ++ fmtStrings candidates)

/-- The method `Application.ResolveArtifact`. -/
def Application.ResolveArtifact (P : Platform) (a : Application) (w : World) :
    Except Error String × World :=
  let pattern := a.resolvePattern P
  let file := filepathJoin [a.ApplicationPath, pattern]
  let w1 := w.log (.glob file)
  match P.Glob w.fs.app file with
  | .error err => (.error (.wrap ("unable to find files with " ++ pattern ++ ": ") err), w1)
  | .ok candidates =>
    match candidates with
    | [c] => (.ok c, w1)
    | _ =>
      match a.investigate P candidates [] w1 with
      | (.error err, w2) => (.error err, w2)
      | (.ok artifacts, w2) =>
        match artifacts with
        | [x] => (.ok x, w2)
        | _ =>
          let _sorted := sortStrings artifacts
          (.error (artifactNotFound pattern candidates), w2)

/-- The method `Application.ResolveArguments`. -/
def Application.ResolveArguments (P : Platform) (a : Application) : Except Error (List String) :=
  match P.LookupEnv "BP_BUILD_ARGUMENTS" with
  | some s =>
    match P.ShellwordsParse s with
    | .error err => .error (.wrap ("unable to parse arguments from " ++ s ++ ": ") err)
    | .ok arguments => .ok arguments
  | none => .ok a.DefaultArguments

/-- The function `NewApplication`. -/
def NewApplication (P : Platform) (applicationPath command : String)
    (defaultArguments : List String) (defaultTarget : String) (w : World) :
    Except Error Application × World :=
  let w1 := w.log (.fileListing applicationPath)
  match P.NewFileListing w.fs.app applicationPath with
  | .error err =>
    (.error (.wrap ("unable to create file listing for " ++ applicationPath ++ ": ") err), w1)
  | .ok l =>
    (.ok { ApplicationPath := applicationPath
           Command := command
           DefaultArguments := defaultArguments
           DefaultTarget := defaultTarget
           Executor := P.Executor
           ExpectedMetadata := [("files", l)] }, w1)

/-- Whether `file` lies below the directory `dir`. -/
def pathUnder (dir file : String) : Bool :=
  (dir.toList ++ ['/']).isPrefixOf file.toList

/-- Write a regular file below a layer directory, replacing what was there. -/
def writeLayerFile (files : List (String × Bytes)) (path : String) (data : Bytes) :
    List (String × Bytes) :=
  (path, data) :: files.filter (fun kv => kv.1 ≠ path)

/-- Empty a layer directory (`os.RemoveAll` followed by `os.MkdirAll`). -/
def resetLayer (w : World) (path : String) : World :=
  { fs := { w.fs with layers := w.fs.layers.filter (fun kv => !pathUnder path kv.1) }
    trace := w.trace ++ [.resetLayer path] }

/-- Put an entry into metadata at the place its key has in ascending order. -/
def insertEntry (key : String) (value : List FileEntry) : Metadata → Metadata
  | [] => [(key, value)]
  | (k, v) :: rest =>
    if stringLe key k then (key, value) :: (k, v) :: rest
    else (k, v) :: insertEntry key value rest

/-- Assign a key of a metadata map: what the key held before is replaced, the
other keys are kept. -/
def setKey (key : String) (value : List FileEntry) (m : Metadata) : Metadata :=
  insertEntry key value (m.filter (fun kv => kv.1 ≠ key))

/-- Decode the encoded expected metadata into an existing metadata map
(`toml.Decode` into `&layer.Metadata`): every key of the expected metadata is
assigned, every other key of the map stays. -/
def mergeMetadata (expected : Metadata) (existing : Metadata) : Metadata :=
  expected.foldl (fun m kv => setKey kv.1 kv.2 m) existing

/-- The method `Contribute` of libpak's `LayerContributor`: when the expected
metadata equal the metadata of the layer the layer is reused as it is; otherwise
the layer directory is emptied, `f` is run, and the expected metadata are decoded
into the metadata of the layer `f` returns, which keeps its other keys. The
encoding and decoding of the expected metadata (a map from a string to a list
of structs of strings and numbers) and the removal and creation of the layer
directory are taken to succeed: each of them fails before `f` is run or after
it has returned, and ends the call with an error. -/
def libpak.LayerContributor.Contribute (expected : Metadata) (layer : Layer)
    (f : World → Except Error Layer × World) (w : World) : Except Error Layer × World :=
  if expected = layer.Metadata then (.ok layer, w)
  else
    match f (resetLayer w layer.Path) with
    | (.error err, w2) => (.error err, w2)
    | (.ok l, w2) => (.ok { l with Metadata := mergeMetadata expected l.Metadata }, w2)

/-- The function literal `Application.Contribute` hands to its layer contributor:
resolve the arguments, run the build, resolve the artifact and copy it to
`application.zip` in the layer. -/
def Application.contributeFunc (P : Platform) (a : Application) (layer : Layer) (w : World) :
    Except Error Layer × World :=
  match a.ResolveArguments P with
  | .error err => (.error (.wrap "unable to resolve arguments: " err), w)
  | .ok arguments =>
    let e : Execution := { Command := a.Command, Args := arguments, Dir := a.ApplicationPath }
    let w1 := w.log (.execute e)
    match a.Executor e w1.fs with
    | (some err, fs1) => (.error (.wrap "error running build: " err), { w1 with fs := fs1 })
    | (none, fs1) =>
      match a.ResolveArtifact P { w1 with fs := fs1 } with
      | (.error err, w3) => (.error (.wrap "unable to resolve artifact: " err), w3)
      | (.ok artifact, w3) =>
        let w4 := w3.log (.openFile artifact)
        match P.OpenArtifact w3.fs.app artifact with
        | .error err => (.error (.wrap ("unable to open " ++ artifact ++ ": ") err), w4)
        | .ok data =>
          let file := filepathJoin [layer.Path, "application.zip"]
          let w5 := w4.log (.copyFile file)
          match P.CopyFileError file with
          | some err =>
            (.error (.wrap ("unable to copy " ++ artifact ++ " to " ++ file ++ ": ") err), w5)
          | none =>
            (.ok { layer with Cache := true },
              { w5 with fs := { w5.fs with layers := writeLayerFile w5.fs.layers file data } })

/-- The loop of `Application.Contribute` that removes the children of the
application path; `cs` holds the names `ioutil.ReadDir` returned. -/
def Application.removeChildren (P : Platform) (a : Application) :
    List String → World → Except Error Unit × World
  | [], w => (.ok (), w)
  | c :: cs, w =>
    let file := filepathJoin [a.ApplicationPath, c]
    let w1 := w.log (.removeAll file)
    match P.RemoveAllError file with
    | some err => (.error (.wrap ("unable to remove " ++ file ++ ": ") err), w1)
    | none =>
      Application.removeChildren P a cs
        { w1 with fs := { w1.fs with app := w1.fs.app.filter (fun kv => kv.1 ≠ c) } }

/-- The part of `Application.Contribute` after the layer contributor has
returned `layer`: remove every child of the application path, then expand
`application.zip` of the layer into it. -/
def Application.replaceSource (P : Platform) (a : Application) (layer : Layer) (w1 : World) :
    Except Error Layer × World :=
  let w2 := w1.log (.readDir a.ApplicationPath)
  match P.ReadDirError a.ApplicationPath with
  | some err =>
    (.error (.wrap ("unable to list children of " ++ a.ApplicationPath ++ ": ") err), w2)
  | none =>
    let cs := sortStrings (w2.fs.app.map Prod.fst)
    match a.removeChildren P cs w2 with
    | (.error err, w3) => (.error err, w3)
    | (.ok _, w3) =>
      let file := filepathJoin [layer.Path, "application.zip"]
      let w4 := w3.log (.openFile file)
      match w3.fs.layers.lookup file with
      | none =>
        (.error (.wrap ("unable to open " ++ file ++ ": ")
          (.leaf ("open " ++ file ++ ": no such file or directory"))), w4)
      | some data =>
        let w5 := w4.log (.extractZip file a.ApplicationPath)
        match P.ExtractZip data w4.fs.app with
        | .error err => (.error (.wrap ("unable to extract " ++ file ++ ": ") err), w5)
        | .ok dir => (.ok layer, { w5 with fs := { w5.fs with app := dir } })

/-- The method `Application.Contribute`. -/
def Application.Contribute (P : Platform) (a : Application) (layer : Layer) (w : World) :
    Except Error Layer × World :=
  match libpak.LayerContributor.Contribute a.ExpectedMetadata layer (a.contributeFunc P layer) w with
  | (.error err, w1) => (.error (.wrap "unable to contribute application layer: " err), w1)
  | (.ok layer, w1) => a.replaceSource P layer w1

/-- The layer of a return `(libcnb.Layer, error)`: every error return of
`Contribute` carries `libcnb.Layer{}`. -/
def returnedLayer : Except Error Layer → Layer
  | .ok layer => layer
  | .error _ => Layer.zero

/-- The number of `Executor.Execute` calls in a trace. -/
def executions (trace : List Event) : Nat :=
  trace.countP (fun e => match e with | .execute _ => true | _ => false)

/-! ## `system/build.go` -/

/-- The value of `libcnb.BuildpackPlan`, by the names of its entries. -/
structure BuildpackPlan where
  Entries : List String
  deriving Repr, DecidableEq

/-- The value of `libpak.PlanEntryResolver`. -/
structure PlanEntryResolver where
  Plan : BuildpackPlan

/-- The value of `libpak.DependencyResolver`, by the ids of its dependencies. -/
structure DependencyResolver where
  Dependencies : List String

/-- The value of `libpak.DependencyCache`. -/
structure DependencyCache where
  Path : String

/-- The fields of `libcnb.BuildContext` that `Build.Build` reads. -/
structure BuildContext where
  ApplicationPath : String
  LayersPath : String
  Plan : BuildpackPlan
  Buildpack : String

/-- Modelled from the spec: the struct `Cache` and `NewCache` (`system/cache.go` is
not among the sources): a pass-through layer that records the path of the build
tool's own cache directory. -/
structure Cache where
  Path : String

/-- Modelled from the spec: the constructor `NewCache`. -/
def NewCache (path : String) : Cache := { Path := path }

/-- Modelled from the spec: the method `Cache.Name` (`system/cache.go` is not
among the sources); `build_test.go` expects the cache layer under the name `cache`. -/
def Cache.Name (_c : Cache) : String := "cache"

/-- A value of the interface `libcnb.LayerContributor` as `Build.Build` collects
them: one returned by a system's `DistributionLayer` (known by its `Name()`), a
`Cache` or an `Application`. -/
inductive LayerContributor where
  | distribution (name : String)
  | cache (c : Cache)
  | application (a : Application)

/-- The method `Name` of a layer contributor. -/
def LayerContributor.Name : LayerContributor → String
  | .distribution name => name
  | .cache c => c.Name
  | .application a => a.Name

/-- Modelled from the spec: the interface `System` (its declaration is not among
the sources), with the methods `Build.Build` calls and the signatures `Gradle`
and `Maven` give them. `DistributionLayer` receives a pointer to the plan of the
result and so returns the plan it leaves behind as well. -/
structure System where
  Participate : PlanEntryResolver → Except Error Bool
  DefaultArguments : List String
  DefaultTarget : String
  Wrapper : String
  Distribution : String → String
  DistributionLayer : DependencyResolver → DependencyCache → BuildpackPlan →
    Except Error (LayerContributor × BuildpackPlan)
  CachePath : Except Error String

/-- The fields of `libcnb.BuildResult` that `Build.Build` writes. -/
structure BuildResult where
  Layers : List LayerContributor
  Plan : BuildpackPlan

/-- The Go zero value `libcnb.BuildResult{}`. -/
def BuildResult.zero : BuildResult := { Layers := [], Plan := { Entries := [] } }

/-- The collaborators `Build.Build` reaches through libpak. -/
structure Libpak where
  /-- The function `libpak.NewDependencyResolver`. -/
  NewDependencyResolver : BuildContext → Except Error DependencyResolver
  /-- The function `libpak.NewDependencyCache`. -/
  NewDependencyCache : String → DependencyCache

/-- The struct `Build`. -/
structure Build where
  Systems : List System

/-- The part of the loop body of `Build.Build` after the command is chosen: the
cache layer and the application layer are appended. -/
def Build.appendLayers (P : Platform) (context : BuildContext) (s : System) (command : String)
    (result : BuildResult) (w : World) : Except Error BuildResult × World :=
  match s.CachePath with
  | .error err => (.error (.wrap "unable to determine cache location\n" err), w)
  | .ok cache =>
    let c := NewCache cache
    let result := { result with Layers := result.Layers ++ [LayerContributor.cache c] }
    match NewApplication P context.ApplicationPath command s.DefaultArguments s.DefaultTarget w with
    | (.error err, w1) => (.error (.wrap "unable to create application layer\n" err), w1)
    | (.ok a, w1) => (.ok { result with Layers := result.Layers ++ [LayerContributor.application a] }, w1)

/-- The body of the loop of `Build.Build` for a system that participates. -/
def Build.contributeSystem (P : Platform) (context : BuildContext) (dr : DependencyResolver)
    (dc : DependencyCache) (s : System) (result : BuildResult) (w : World) :
    Except Error BuildResult × World :=
  let wrapper := filepathJoin [context.ApplicationPath, s.Wrapper]
  let w1 := w.log (.stat wrapper)
  match P.Stat w.fs.app wrapper with
  | .notExist =>
    let command := s.Distribution context.LayersPath
    let w2 := w1.log .distributionLayer
    match s.DistributionLayer dr dc result.Plan with
    | .error err => (.error (.wrap "unable to create distribution layer\n" err), w2)
    | .ok (layer, plan) =>
      Build.appendLayers P context s command
        { Layers := result.Layers ++ [layer], Plan := plan } w2
  | .failed err => (.error (.wrap ("unable to stat " ++ wrapper ++ "\n") err), w1)
  | .found => Build.appendLayers P context s wrapper result w1

/-- The loop over `b.Systems` in `Build.Build`. -/
def Build.systemsLoop (P : Platform) (context : BuildContext) (pr : PlanEntryResolver)
    (dr : DependencyResolver) (dc : DependencyCache) :
    List System → BuildResult → World → Except Error BuildResult × World
  | [], result, w => (.ok result, w)
  | s :: ss, result, w =>
    match s.Participate pr with
    | .error err => (.error (.wrap "unable to determine participation\n" err), w)
    | .ok false => Build.systemsLoop P context pr dr dc ss result w
    | .ok true =>
      match Build.contributeSystem P context dr dc s result w with
      | (.error err, w1) => (.error err, w1)
      | (.ok result, w1) => Build.systemsLoop P context pr dr dc ss result w1

/-- The method `Build.Build`. -/
def Build.Build (P : Platform) (L : Libpak) (b : Build) (context : BuildContext) (w : World) :
    Except Error BuildResult × World :=
  let result := BuildResult.zero
  let pr : PlanEntryResolver := { Plan := context.Plan }
  match L.NewDependencyResolver context with
  | .error err => (.error (.wrap "unable to create dependency resolver\n" err), w)
  | .ok dr =>
    let dc := L.NewDependencyCache context.Buildpack
    Build.systemsLoop P context pr dr dc b.Systems result w

/-! ## `system/gradle.go` and `system/maven.go` -/

/-- The value of `libcnb.BuildPlan`, by the names it provides and requires. -/
structure BuildPlan where
  Provides : List String
  Requires : List String
  deriving Repr, DecidableEq

/-- The value of `libcnb.DetectResult`. -/
structure DetectResult where
  Pass : Bool
  Plans : List BuildPlan
  deriving Repr, DecidableEq

/-- The Go zero value `libcnb.DetectResult{}`. -/
def DetectResult.zero : DetectResult := { Pass := false, Plans := [] }

/-- The field of `libcnb.DetectContext` that detection reads. -/
structure DetectContext where
  ApplicationPath : String

/-- The loop over `files` in `Gradle.Detect`. The result is behind a pointer in
Go, so what has been written to it stays written when an error is returned. -/
def Gradle.detectFiles (P : Platform) (dir : Dir) :
    List String → DetectResult → Option Error × DetectResult
  | [], result => (none, result)
  | f :: fs, result =>
    match P.Stat dir f with
    | .notExist => Gradle.detectFiles P dir fs result
    | .failed err => (some (.wrap ("unable to determine if " ++ f ++ " exists: ") err), result)
    | .found =>
      Gradle.detectFiles P dir fs
        { Pass := true
          Plans := result.Plans ++
            [{ Provides := ["gradle", "jvm-application"], Requires := ["gradle", "jdk"] }] }

/-- The method `Gradle.Detect`: the error it returns, if any, and the result it
leaves behind the pointer. -/
def Gradle.Detect (P : Platform) (dir : Dir) (context : DetectContext) (result : DetectResult) :
    Option Error × DetectResult :=
  let files :=
    [filepathJoin [context.ApplicationPath, "build.gradle"],
     filepathJoin [context.ApplicationPath, "build.gradle.kts"]]
  Gradle.detectFiles P dir files result

/-- The method `Maven.Detect`: the error it returns, if any, and the result it
leaves behind the pointer. -/
def Maven.Detect (P : Platform) (dir : Dir) (context : DetectContext) (result : DetectResult) :
    Option Error × DetectResult :=
  let file := filepathJoin [context.ApplicationPath, "pom.xml"]
  match P.Stat dir file with
  | .notExist => (none, result)
  | .failed err => (some (.wrap ("unable to determine if " ++ file ++ " exists\n") err), result)
  | .found =>
    (none,
      { Pass := true
        Plans := result.Plans ++
          [{ Provides := ["maven", "jvm-application"], Requires := ["maven", "jdk"] }] })

/-! ## Definitions used to state the properties -/

/-- The verdict of `interestingFile` on a path, as a function of the application
directory alone. -/
def Application.verdict (P : Platform) (a : Application) (dir : Dir) (path : String) :
    Except Error Bool :=
  match P.ZipOpenReader dir path with
  | .error err => .error (.wrap ("unable to open " ++ path ++ ": ") err)
  | .ok files => a.interestingEntries P path files

/-- Whether an investigation ended with the answer `true`. -/
def isOkTrue : Except Error Bool → Bool
  | .ok true => true
  | _ => false

/-- Whether an archive entry is the directory entry `WEB-INF/`. -/
def ZipFile.isWebInf (f : ZipFile) : Prop :=
  f.Name = "WEB-INF/" ∧ f.IsDir = true

/-- Whether an archive entry is a manifest whose properties hold `Main-Class`. -/
def ZipFile.hasMainClass (P : Platform) (f : ZipFile) : Prop :=
  f.Name = "META-INF/MANIFEST.MF" ∧
    ∃ b p, f.Open = .ok (.ok b) ∧ P.PropertiesLoad b = .ok p ∧ (p.lookup "Main-Class").isSome = true

/-- The pattern as the specification words it: the artifact override wins, then
the module override joined in front of the default target, then the default. -/
def specPattern (artifact module : Option String) (defaultTarget : String) : String :=
  match artifact with
  | some s => s
  | none =>
    match module with
    | some m => filepathJoin [m, defaultTarget]
    | none => defaultTarget

/-! ## Worked inputs -/

/-- An archive entry whose contents can be opened and read. -/
def readableEntry (name : String) (isDir : Bool) (data : Bytes) : ZipFile :=
  { Name := name, IsDir := isDir, Open := .ok (.ok data) }

/-- A platform for worked inputs: the environment `env`, a glob that matches
`matches`, the archives `archives` by path, a properties parser that finds
`Main-Class` in the contents `[1]` and nothing elsewhere, and an extractor that
adds the entry `BOOT-INF` holding the archive bytes. -/
def examplePlatform (env : List (String × String)) (found : List String)
    (archives : List (String × List ZipFile)) : Platform :=
  { LookupEnv := fun key => env.lookup key
    Glob := fun _ _ => .ok found
    ZipOpenReader := fun _ path =>
      match archives.lookup path with
      | some files => .ok files
      | none => .error (.leaf "zip: not a valid zip file")
    PropertiesLoad := fun b => .ok (if b = [1] then [("Main-Class", "example.Main")] else [])
    ShellwordsParse := fun s => .ok [s]
    OpenArtifact := fun _ _ => .ok [80, 75, 3, 4]
    ExtractZip := fun data dir => .ok (dir ++ [("BOOT-INF", Node.file data)])
    NewFileListing := fun _ _ => .ok []
    Stat := fun _ _ => .notExist
    ReadDirError := fun _ => none
    RemoveAllError := fun _ => none
    CopyFileError := fun _ => none
    Executor := fun _ fs => (none, fs) }

/-- An application rooted at `/workspace` with the defaults of Maven; its build
leaves `target/app.jar` behind. -/
def exampleApplication : Application :=
  { ApplicationPath := "/workspace"
    Command := "/workspace/mvnw"
    DefaultArguments := ["-Dmaven.test.skip=true", "package"]
    DefaultTarget := "target/*.[jw]ar"
    Executor := fun _ fs =>
      (none, { fs with app := fs.app ++ [("target", Node.dir [("app.jar", Node.file [80, 75, 3, 4])])] })
    ExpectedMetadata :=
      [("files", [{ Path := "pom.xml", Mode := "-rw-r--r--",
                    ModificationTime := "2020-05-01T00:00:00Z", Size := 1 }])] }

/-- A fresh application layer: no metadata, no files. -/
def exampleLayer : Layer :=
  { Path := "/layers/build-system/application", Build := false, Cache := false, Launch := false,
    Metadata := [] }

/-- An application layer of an earlier build of other sources: its metadata hold
an older file listing under the key `files`. -/
def staleLayer : Layer :=
  { Path := "/layers/build-system/application", Build := false, Cache := true, Launch := false,
    Metadata := [("files", [{ Path := "pom.xml", Mode := "-rw-r--r--",
                              ModificationTime := "2020-04-01T00:00:00Z", Size := 1 }])] }

/-- An application layer of an earlier build whose metadata hold the key
`previous` and no file listing. -/
def previousLayer : Layer :=
  { Path := "/layers/build-system/application", Build := false, Cache := true, Launch := false,
    Metadata := [("previous", [])] }

/-- The platform on which the build of `exampleApplication` yields one artifact. -/
def oneArtifactPlatform : Platform :=
  examplePlatform [] ["/workspace/target/app.jar"] []

/-- The platform on which the glob finds nothing. -/
def noArtifactPlatform : Platform :=
  examplePlatform [] [] []

/-- A build context for `/workspace`. -/
def exampleContext : BuildContext :=
  { ApplicationPath := "/workspace", LayersPath := "/layers/build-system",
    Plan := { Entries := ["maven"] }, Buildpack := "paketo-buildpacks/build-system" }

/-- Libpak collaborators that succeed. -/
def exampleLibpak : Libpak :=
  { NewDependencyResolver := fun _ => .ok { Dependencies := ["gradle", "maven"] }
    NewDependencyCache := fun _ => { Path := "/cnb/buildpack/dependencies" } }

/-- The system Maven as `system/maven.go` defines it; `cachePath` is the outcome
of `CachePath`, which depends on the current user. -/
def mavenSystem (cachePath : Except Error String) : System :=
  { Participate := fun r => .ok (r.Plan.Entries.contains "maven")
    DefaultArguments := ["-Dmaven.test.skip=true", "package"]
    DefaultTarget := filepathJoin ["target", "*.[jw]ar"]
    Wrapper := "mvnw"
    Distribution := fun layersPath => filepathJoin [layersPath, "maven", "bin", "mvn"]
    DistributionLayer := fun r _ plan =>
      if r.Dependencies.contains "maven" then
        .ok (LayerContributor.distribution "maven", { Entries := plan.Entries ++ ["maven"] })
      else .error (.wrap "unable to find depdency\n" (.leaf "no valid dependencies for maven"))
    CachePath := cachePath }

/-- The system Gradle as `system/gradle.go` defines it, for a user with home `/home/cnb`. -/
def gradleSystem : System :=
  { Participate := fun r => .ok (r.Plan.Entries.contains "gradle")
    DefaultArguments := ["--no-daemon", "-x", "test", "build"]
    DefaultTarget := filepathJoin ["build", "libs", "*.[jw]ar"]
    Wrapper := "gradlew"
    Distribution := fun layersPath => filepathJoin [layersPath, "gradle", "bin", "gradle"]
    DistributionLayer := fun r _ plan =>
      if r.Dependencies.contains "gradle" then
        .ok (LayerContributor.distribution "gradle", { Entries := plan.Entries ++ ["gradle"] })
      else .error (.wrap "unable to find depdency: " (.leaf "no valid dependencies for gradle"))
    CachePath := .ok "/home/cnb/.gradle" }

/-- A world whose application directory holds a `pom.xml` and a `src` directory. -/
def exampleWorld : World :=
  { fs := { app := [("pom.xml", Node.file [60]), ("src", Node.dir [])], layers := [] }
    trace := [] }

/-- A war: an archive with the directory entry `WEB-INF/`. -/
def exampleWar : List ZipFile :=
  [readableEntry "META-INF/MANIFEST.MF" false [0], readableEntry "WEB-INF/" true []]

/-- A library jar: a manifest without `Main-Class` and a class file. -/
def exampleLibrary : List ZipFile :=
  [readableEntry "META-INF/MANIFEST.MF" false [0], readableEntry "Lib.class" false [2]]

/-- An executable jar: a manifest with `Main-Class`. -/
def exampleExecutable : List ZipFile :=
  [readableEntry "META-INF/MANIFEST.MF" false [1], readableEntry "Main.class" false [2]]

/-- The application `NewApplication` builds for a system, a command and a file
listing. -/
def applicationFor (P : Platform) (context : BuildContext) (s : System) (command : String)
    (files : List FileEntry) : Application :=
  { ApplicationPath := context.ApplicationPath
    Command := command
    DefaultArguments := s.DefaultArguments
    DefaultTarget := s.DefaultTarget
    Executor := P.Executor
    ExpectedMetadata := [("files", files)] }

/-- The platform on which the Maven wrapper `/workspace/mvnw` exists. -/
def wrapperPlatform : Platform :=
  { noArtifactPlatform with
    Stat := fun _ path => if path = "/workspace/mvnw" then .found else .notExist }

/-- The error of `user.Current` when the current user cannot be determined. -/
def noCurrentUser : Error :=
  .wrap "unable to determine user home directory\n" (.leaf "user: Current requires cgo or $USER set in environment")

/-- A tokenizer for worked inputs: words are separated by blanks, and a value
holding a double quote is taken to have an unterminated quote. -/
def exampleShellwords (s : String) : Except Error (List String) :=
  if '"' ∈ s.toList then .error (.leaf "invalid command line string")
  else .ok (((splitBlank s.toList).filter (fun word => word ≠ [])).map String.mk)

/-- The platform with `BP_BUILD_ARGUMENTS` set to `value` and `exampleShellwords`
as the tokenizer. -/
def argumentsPlatform (value : String) : Platform :=
  { examplePlatform [("BP_BUILD_ARGUMENTS", value)] [] [] with
    ShellwordsParse := exampleShellwords }

/-- The platform on which exactly the paths `present` exist. -/
def markerPlatform (present : List String) : Platform :=
  { noArtifactPlatform with
    Stat := fun _ path => if path ∈ present then .found else .notExist }

/-- The example application with a build command that fails. -/
def failingBuildApplication : Application :=
  { exampleApplication with
    Executor := fun _ fs => (some (.leaf "exit status 1"), fs) }

/-! ## Properties of artifact resolution -/

theorem interestingFile_eq (P : Platform) (a : Application) (path : String) (w : World) :
    a.interestingFile P path w = (a.verdict P w.fs.app path, w.log (.zipOpenReader path)) := by
  unfold Application.interestingFile Application.verdict
  cases P.ZipOpenReader w.fs.app path <;> rfl

theorem log_fs (w : World) (e : Event) : (w.log e).fs = w.fs := rfl

theorem log_trace (w : World) (e : Event) : (w.log e).trace = w.trace ++ [e] := rfl

theorem investigate_fs (P : Platform) (a : Application) (cs : List String) :
    ∀ (acc : List String) (w : World), (a.investigate P cs acc w).2.fs = w.fs := by
  induction cs with
  | nil => intro acc w; rfl
  | cons c cs ih =>
    intro acc w
    rw [Application.investigate, interestingFile_eq]
    cases h : a.verdict P w.fs.app c with
    | error err => simp [log_fs]
    | ok b => simp only []; rw [ih]; rfl

/-- When the loop over the candidates ends without error, the collected slice is
the interesting candidates in glob order, appended to what was there. -/
theorem investigate_sound (P : Platform) (a : Application) (cs : List String) :
    ∀ (acc : List String) (w : World) (arts : List String),
      (a.investigate P cs acc w).1 = .ok arts →
      arts = acc ++ cs.filter (fun c => isOkTrue (a.verdict P w.fs.app c)) := by
  induction cs with
  | nil =>
    intro acc w arts h
    simp [Application.investigate] at h
    simp [h]
  | cons c cs ih =>
    intro acc w arts h
    rw [Application.investigate, interestingFile_eq] at h
    cases hv : a.verdict P w.fs.app c with
    | error err => rw [hv] at h; simp at h
    | ok b =>
      rw [hv] at h
      simp only [] at h
      have h2 := ih _ _ _ h
      rw [log_fs] at h2
      cases b <;> simp [List.filter, hv, isOkTrue, h2]

/-- When every candidate can be investigated, the loop ends without error. -/
theorem investigate_total (P : Platform) (a : Application) (cs : List String) :
    ∀ (acc : List String) (w : World),
      (∀ c ∈ cs, ∃ b, a.verdict P w.fs.app c = .ok b) →
      ∃ arts, (a.investigate P cs acc w).1 = .ok arts := by
  induction cs with
  | nil => intro acc w _; exact ⟨acc, rfl⟩
  | cons c cs ih =>
    intro acc w h
    obtain ⟨b, hb⟩ := h c (List.mem_cons_self _ _)
    rw [Application.investigate, interestingFile_eq, hb]
    simp only []
    apply ih
    intro c1 hc1
    rw [log_fs]
    exact h c1 (List.mem_cons_of_mem _ hc1)

/-- The events a run of the loop adds to the trace are `zip.OpenReader` calls. -/
theorem investigate_trace (P : Platform) (a : Application) (cs : List String) :
    ∀ (acc : List String) (w : World),
      ∃ paths : List String,
        (a.investigate P cs acc w).2.trace = w.trace ++ paths.map Event.zipOpenReader := by
  induction cs with
  | nil => intro acc w; exact ⟨[], by simp [Application.investigate]⟩
  | cons c cs ih =>
    intro acc w
    rw [Application.investigate, interestingFile_eq]
    cases hv : a.verdict P w.fs.app c with
    | error err => exact ⟨[c], by simp [log_trace]⟩
    | ok b =>
      simp only []
      obtain ⟨ps, hps⟩ := ih (if b = true then acc ++ [c] else acc) (w.log (.zipOpenReader c))
      exact ⟨c :: ps, by rw [hps]; simp [log_trace]⟩

theorem resolveArtifact_unfold (P : Platform) (a : Application) (w : World) (cs : List String)
    (hg : P.Glob w.fs.app (filepathJoin [a.ApplicationPath, a.resolvePattern P]) = .ok cs)
    (hlen : cs.length ≠ 1) :
    a.ResolveArtifact P w =
      match a.investigate P cs [] (w.log (.glob (filepathJoin [a.ApplicationPath, a.resolvePattern P]))) with
      | (.error err, w2) => (.error err, w2)
      | (.ok artifacts, w2) =>
        match artifacts with
        | [x] => (.ok x, w2)
        | _ => (.error (artifactNotFound (a.resolvePattern P) cs), w2) := by
  unfold Application.ResolveArtifact
  simp only [hg]
  match cs, hlen with
  | [], _ => rfl
  | [c], h => exact absurd rfl h
  | _ :: _ :: _, _ => rfl

/-- C5. When the glob expansion yields exactly one candidate, `ResolveArtifact`
returns that candidate unchanged without error, and the only collaborator it has
called is the glob: no archive is opened, so the answer is the same whatever
`zip.OpenReader` would have said about the file. -/
theorem resolveArtifact_single (P : Platform) (a : Application) (w : World) (c : String)
    (hg : P.Glob w.fs.app (filepathJoin [a.ApplicationPath, a.resolvePattern P]) = .ok [c]) :
    a.ResolveArtifact P w =
      (.ok c, w.log (.glob (filepathJoin [a.ApplicationPath, a.resolvePattern P]))) ∧
    ∀ path, Event.zipOpenReader path ∉ (a.ResolveArtifact P w).2.trace.drop w.trace.length := by
  have h : a.ResolveArtifact P w =
      (.ok c, w.log (.glob (filepathJoin [a.ApplicationPath, a.resolvePattern P]))) := by
    unfold Application.ResolveArtifact
    simp only [hg]
  refine ⟨h, ?_⟩
  intro path
  rw [h]
  simp [log_trace]

/-- C6. With two or more candidates that can all be investigated without error,
of which exactly one (at any position) is interesting, `ResolveArtifact` returns
that candidate without error. -/
theorem resolveArtifact_unique_interesting (P : Platform) (a : Application) (w : World)
    (pre post : List String) (x : String)
    (hg : P.Glob w.fs.app (filepathJoin [a.ApplicationPath, a.resolvePattern P])
      = .ok (pre ++ x :: post))
    (hlen : 2 ≤ (pre ++ x :: post).length)
    (hx : (a.interestingFile P x w).1 = .ok true)
    (hrest : ∀ c ∈ pre ++ post, (a.interestingFile P c w).1 = .ok false) :
    (a.ResolveArtifact P w).1 = .ok x := by
  simp only [interestingFile_eq] at hx hrest
  have hne : (pre ++ x :: post).length ≠ 1 := by omega
  rw [resolveArtifact_unfold P a w _ hg hne]
  have hall : ∀ c ∈ pre ++ x :: post, ∃ b, a.verdict P
      (w.log (.glob (filepathJoin [a.ApplicationPath, a.resolvePattern P]))).fs.app c = .ok b := by
    intro c hc
    rw [log_fs]
    rcases List.mem_append.mp hc with h | h
    · exact ⟨false, hrest c (List.mem_append_left _ h)⟩
    · rcases List.mem_cons.mp h with h | h
      · exact ⟨true, h ▸ hx⟩
      · exact ⟨false, hrest c (List.mem_append_right _ h)⟩
  obtain ⟨arts, harts⟩ := investigate_total P a _ [] _ hall
  have hs := investigate_sound P a _ [] _ arts harts
  rw [log_fs] at hs
  have hpre : pre.filter (fun c => isOkTrue (a.verdict P w.fs.app c)) = [] := by
    rw [List.filter_eq_nil_iff]
    intro c hc
    simp [hrest c (List.mem_append_left _ hc), isOkTrue]
  have hpost : post.filter (fun c => isOkTrue (a.verdict P w.fs.app c)) = [] := by
    rw [List.filter_eq_nil_iff]
    intro c hc
    simp [hrest c (List.mem_append_right _ hc), isOkTrue]
  have harts2 : arts = [x] := by
    have hxt : isOkTrue (a.verdict P w.fs.app x) = true := by rw [hx]; rfl
    rw [hs, List.nil_append, List.filter_append, hpre, List.nil_append, List.filter_cons,
      if_pos hxt, hpost]
  revert harts
  generalize a.investigate P (pre ++ x :: post) []
    (w.log (.glob (filepathJoin [a.ApplicationPath, a.resolvePattern P]))) = r
  intro harts
  obtain ⟨r1, r2⟩ := r
  simp only at harts
  subst harts
  subst harts2
  rfl

/-- C7. `ResolveArtifact` returns an error (and so no path) when the glob
expansion yields no candidate, and when it yields two or more candidates of which
the number found interesting is not one; it never picks one of several
interesting candidates. -/
theorem resolveArtifact_not_found (P : Platform) (a : Application) (w : World)
    (cs : List String)
    (hg : P.Glob w.fs.app (filepathJoin [a.ApplicationPath, a.resolvePattern P]) = .ok cs) :
    (cs = [] → ∃ err, (a.ResolveArtifact P w).1 = .error err) ∧
    (2 ≤ cs.length →
      (cs.filter (fun c => isOkTrue (a.interestingFile P c w).1)).length ≠ 1 →
      ∃ err, (a.ResolveArtifact P w).1 = .error err) := by
  have key : cs.length ≠ 1 →
      (cs.filter (fun c => isOkTrue (a.interestingFile P c w).1)).length ≠ 1 →
      ∃ err, (a.ResolveArtifact P w).1 = .error err := by
    intro hne hcount
    simp only [interestingFile_eq] at hcount
    rw [resolveArtifact_unfold P a w _ hg hne]
    have hs := investigate_sound P a cs []
      (w.log (.glob (filepathJoin [a.ApplicationPath, a.resolvePattern P])))
    revert hs
    generalize a.investigate P cs []
      (w.log (.glob (filepathJoin [a.ApplicationPath, a.resolvePattern P]))) = r
    intro hs
    obtain ⟨r1, r2⟩ := r
    cases r1 with
    | error err => exact ⟨err, rfl⟩
    | ok arts =>
      have h := hs arts rfl
      rw [log_fs, List.nil_append] at h
      match arts, h with
      | [], _ => exact ⟨_, rfl⟩
      | [y], h => rw [← h] at hcount; exact absurd rfl hcount
      | _ :: _ :: _, _ => exact ⟨_, rfl⟩
  constructor
  · intro hnil
    subst hnil
    exact key (by simp) (by simp)
  · intro h2 hcount
    exact key (by omega) hcount

/-- The events `ResolveArtifact` adds to the trace: one glob of the pattern joined
under the application path, then `zip.OpenReader` calls. -/
theorem resolveArtifact_trace (P : Platform) (a : Application) (w : World) :
    ∃ paths : List String, (a.ResolveArtifact P w).2.trace =
      w.trace ++ Event.glob (filepathJoin [a.ApplicationPath, a.resolvePattern P])
        :: paths.map Event.zipOpenReader := by
  cases hg : P.Glob w.fs.app (filepathJoin [a.ApplicationPath, a.resolvePattern P]) with
  | error err =>
    refine ⟨[], ?_⟩
    unfold Application.ResolveArtifact
    simp only [hg]
    simp [log_trace]
  | ok cs =>
    by_cases hlen : cs.length = 1
    · match cs, hlen with
      | [c], _ =>
        refine ⟨[], ?_⟩
        unfold Application.ResolveArtifact
        simp only [hg]
        simp [log_trace]
    · rw [resolveArtifact_unfold P a w cs hg hlen]
      obtain ⟨ps, hps⟩ := investigate_trace P a cs []
        (w.log (.glob (filepathJoin [a.ApplicationPath, a.resolvePattern P])))
      refine ⟨ps, ?_⟩
      revert hps
      generalize a.investigate P cs []
        (w.log (.glob (filepathJoin [a.ApplicationPath, a.resolvePattern P]))) = r
      intro hps
      obtain ⟨r1, r2⟩ := r
      simp only [log_trace] at hps
      cases r1 with
      | error err => simp [hps]
      | ok arts =>
        match arts with
        | [] => simp [hps]
        | [y] => simp [hps]
        | _ :: _ :: _ => simp [hps]

/-- C9. The pattern `ResolveArtifact` expands is: the value of `BP_BUILT_ARTIFACT`
when it is set, whatever `BP_BUILT_MODULE` is; otherwise the value of
`BP_BUILT_MODULE` joined in front of `DefaultTarget` when that is set; otherwise
`DefaultTarget` unchanged. It is expanded once, joined under the application
path, and no other glob is made. -/
theorem resolveArtifact_pattern (P : Platform) (a : Application) (w : World) :
    a.resolvePattern P =
      specPattern (P.LookupEnv "BP_BUILT_ARTIFACT") (P.LookupEnv "BP_BUILT_MODULE") a.DefaultTarget ∧
    (∀ s, P.LookupEnv "BP_BUILT_ARTIFACT" = some s → a.resolvePattern P = s) ∧
    (∀ m, P.LookupEnv "BP_BUILT_ARTIFACT" = none → P.LookupEnv "BP_BUILT_MODULE" = some m →
      a.resolvePattern P = filepathJoin [m, a.DefaultTarget]) ∧
    (P.LookupEnv "BP_BUILT_ARTIFACT" = none → P.LookupEnv "BP_BUILT_MODULE" = none →
      a.resolvePattern P = a.DefaultTarget) ∧
    ∃ rest, (a.ResolveArtifact P w).2.trace =
        w.trace ++ Event.glob (filepathJoin [a.ApplicationPath, a.resolvePattern P]) :: rest ∧
      ∀ file, Event.glob file ∉ rest := by
  refine ⟨?_, ?_, ?_, ?_, ?_⟩
  · unfold Application.resolvePattern specPattern
    cases P.LookupEnv "BP_BUILT_ARTIFACT" <;> cases P.LookupEnv "BP_BUILT_MODULE" <;> rfl
  · intro s hs
    unfold Application.resolvePattern
    simp only [hs]
  · intro m ha hm
    unfold Application.resolvePattern
    simp only [ha, hm]
  · intro ha hm
    unfold Application.resolvePattern
    simp only [ha, hm]
  · obtain ⟨paths, hp⟩ := resolveArtifact_trace P a w
    refine ⟨paths.map Event.zipOpenReader, hp, ?_⟩
    intro file hmem
    simp at hmem

theorem interestingEntry_spec (P : Platform) (a : Application) (f : ZipFile)
    (hread : f.Name = "META-INF/MANIFEST.MF" →
      ∃ b p, f.Open = .ok (.ok b) ∧ P.PropertiesLoad b = .ok p) :
    ∃ r, a.interestingEntry P f = .ok r ∧ (r = true ↔ f.isWebInf ∨ f.hasMainClass P) := by
  unfold Application.interestingEntry
  by_cases h1 : f.Name = "WEB-INF/" ∧ f.IsDir = true
  · rw [if_pos h1]
    exact ⟨true, rfl, by simp [ZipFile.isWebInf, h1]⟩
  · rw [if_neg h1]
    by_cases h2 : f.Name = "META-INF/MANIFEST.MF"
    · rw [if_pos h2]
      obtain ⟨b, p, ho, hp⟩ := hread h2
      simp only [ho, hp]
      cases hl : (List.lookup "Main-Class" p).isSome with
      | true =>
        refine ⟨true, by simp, ?_⟩
        simp only [true_iff]
        exact Or.inr ⟨h2, b, p, ho, hp, hl⟩
      | false =>
        refine ⟨false, by simp, ?_⟩
        simp only [Bool.false_eq_true, false_iff, not_or]
        refine ⟨h1, ?_⟩
        rintro ⟨_, b2, p2, ho2, hp2, hl2⟩
        rw [ho] at ho2
        cases ho2
        rw [hp] at hp2
        cases hp2
        rw [hl] at hl2
        cases hl2
    · rw [if_neg h2]
      refine ⟨false, rfl, ?_⟩
      simp only [Bool.false_eq_true, false_iff, not_or]
      exact ⟨h1, fun h => h2 h.1⟩

theorem interestingEntries_spec (P : Platform) (a : Application) (path : String)
    (files : List ZipFile)
    (hread : ∀ f ∈ files, f.Name = "META-INF/MANIFEST.MF" →
      ∃ b p, f.Open = .ok (.ok b) ∧ P.PropertiesLoad b = .ok p) :
    ∃ r, a.interestingEntries P path files = .ok r ∧
      (r = true ↔ (∃ f ∈ files, f.isWebInf) ∨ (∃ f ∈ files, f.hasMainClass P)) := by
  induction files with
  | nil => exact ⟨false, rfl, by simp⟩
  | cons f fs ih =>
    obtain ⟨r, hr, hiff⟩ := interestingEntry_spec P a f (hread f (List.mem_cons_self _ _))
    obtain ⟨r2, hr2, hiff2⟩ := ih (fun g hg => hread g (List.mem_cons_of_mem _ hg))
    unfold Application.interestingEntries
    rw [hr]
    cases r with
    | true =>
      refine ⟨true, rfl, ?_⟩
      simp only [true_iff]
      rcases hiff.mp rfl with h | h
      · exact Or.inl ⟨f, List.mem_cons_self _ _, h⟩
      · exact Or.inr ⟨f, List.mem_cons_self _ _, h⟩
    | false =>
      refine ⟨r2, hr2, ?_⟩
      have hf : ¬ (f.isWebInf ∨ f.hasMainClass P) := fun h => by simpa using hiff.mpr h
      rw [hiff2]
      simp only [List.mem_cons, exists_eq_or_imp]
      constructor
      · rintro (h | h)
        · exact Or.inl (Or.inr h)
        · exact Or.inr (Or.inr h)
      · rintro ((h | h) | (h | h))
        · exact absurd (Or.inl h) hf
        · exact Or.inl h
        · exact absurd (Or.inr h) hf
        · exact Or.inr h

/-- C10. For an archive that can be opened and whose manifest entries can be
opened, read and parsed, `interestingFile` returns without error, and it returns
true exactly when the archive has a directory entry named `WEB-INF/` or an entry
`META-INF/MANIFEST.MF` whose properties hold the key `Main-Class`. -/
theorem interestingFile_iff (P : Platform) (a : Application) (path : String) (w : World)
    (files : List ZipFile)
    (hz : P.ZipOpenReader w.fs.app path = .ok files)
    (hread : ∀ f ∈ files, f.Name = "META-INF/MANIFEST.MF" →
      ∃ b p, f.Open = .ok (.ok b) ∧ P.PropertiesLoad b = .ok p) :
    (∃ r, (a.interestingFile P path w).1 = .ok r) ∧
    ((a.interestingFile P path w).1 = .ok true ↔
      (∃ f ∈ files, f.Name = "WEB-INF/" ∧ f.IsDir = true) ∨
      (∃ f ∈ files, f.Name = "META-INF/MANIFEST.MF" ∧
        ∃ b p, f.Open = .ok (.ok b) ∧ P.PropertiesLoad b = .ok p ∧
          (p.lookup "Main-Class").isSome = true)) := by
  obtain ⟨r, hr, hiff⟩ := interestingEntries_spec P a path files hread
  have h : (a.interestingFile P path w).1 = .ok r := by
    rw [interestingFile_eq]
    unfold Application.verdict
    simp only [hz, hr]
  rw [h]
  refine ⟨⟨r, rfl⟩, ?_⟩
  have hiff2 : r = true ↔
      (∃ f ∈ files, f.Name = "WEB-INF/" ∧ f.IsDir = true) ∨
      (∃ f ∈ files, f.Name = "META-INF/MANIFEST.MF" ∧
        ∃ b p, f.Open = .ok (.ok b) ∧ P.PropertiesLoad b = .ok p ∧
          (p.lookup "Main-Class").isSome = true) := hiff
  rw [← hiff2]
  constructor
  · intro h2; cases h2; rfl
  · intro h2; rw [h2]

/-- Witness of C5: one match of the default Maven pattern. -/
theorem resolveArtifact_single_witness :
    (examplePlatform [] ["/workspace/target/app.jar"] []).Glob exampleWorld.fs.app
        (filepathJoin [exampleApplication.ApplicationPath,
          exampleApplication.resolvePattern (examplePlatform [] ["/workspace/target/app.jar"] [])])
      = .ok ["/workspace/target/app.jar"] ∧
    (exampleApplication.ResolveArtifact (examplePlatform [] ["/workspace/target/app.jar"] [])
      exampleWorld).1 = .ok "/workspace/target/app.jar" :=
  ⟨rfl, by
    rw [(resolveArtifact_single (examplePlatform [] ["/workspace/target/app.jar"] [])
      exampleApplication exampleWorld "/workspace/target/app.jar" rfl).1]⟩

/-- Witness of C6: a library jar and a war; the war, in second position, is the artifact. -/
theorem resolveArtifact_unique_interesting_witness :
    (exampleApplication.ResolveArtifact
      (examplePlatform [] ["/workspace/target/lib.jar", "/workspace/target/web.war"]
        [("/workspace/target/lib.jar", exampleLibrary), ("/workspace/target/web.war", exampleWar)])
      exampleWorld).1 = .ok "/workspace/target/web.war" :=
  resolveArtifact_unique_interesting
    (examplePlatform [] ["/workspace/target/lib.jar", "/workspace/target/web.war"]
      [("/workspace/target/lib.jar", exampleLibrary), ("/workspace/target/web.war", exampleWar)])
    exampleApplication exampleWorld ["/workspace/target/lib.jar"] [] "/workspace/target/web.war"
    rfl (by decide) rfl (by intro c hc; simp at hc; subst hc; rfl)

/-- Witness of C7: two library jars, neither of them interesting. -/
theorem resolveArtifact_not_found_witness :
    (examplePlatform [] ["/workspace/target/a.jar", "/workspace/target/b.jar"]
        [("/workspace/target/a.jar", exampleLibrary), ("/workspace/target/b.jar", exampleLibrary)]).Glob
      exampleWorld.fs.app "/workspace/target/*.[jw]ar"
      = .ok ["/workspace/target/a.jar", "/workspace/target/b.jar"] ∧
    ∃ err, (exampleApplication.ResolveArtifact
      (examplePlatform [] ["/workspace/target/a.jar", "/workspace/target/b.jar"]
        [("/workspace/target/a.jar", exampleLibrary), ("/workspace/target/b.jar", exampleLibrary)])
      exampleWorld).1 = .error err :=
  ⟨rfl, (resolveArtifact_not_found
    (examplePlatform [] ["/workspace/target/a.jar", "/workspace/target/b.jar"]
      [("/workspace/target/a.jar", exampleLibrary), ("/workspace/target/b.jar", exampleLibrary)])
    exampleApplication exampleWorld ["/workspace/target/a.jar", "/workspace/target/b.jar"] rfl).2
    (by decide) (by decide)⟩

/-- C8. With `BP_BUILT_ARTIFACT` set to `*/app.jar` and the two matches
`/workspace/a/app.jar` and `/workspace/a-b/app.jar`, returned by the glob in this
order and neither of them interesting, the message of the error lists the
candidates in the order of the glob, which is not ascending: `sort.Strings` was
applied to the interesting artifacts, not to the candidates. -/
theorem resolveArtifact_candidates_unsorted :
    (exampleApplication.ResolveArtifact
      (examplePlatform [("BP_BUILT_ARTIFACT", "*/app.jar")]
        ["/workspace/a/app.jar", "/workspace/a-b/app.jar"]
        [("/workspace/a/app.jar", exampleLibrary), ("/workspace/a-b/app.jar", exampleLibrary)])
      exampleWorld).1
      = .error (.leaf ("unable to find built artifact (executable JAR or WAR) in */app.jar, "
          ++ "candidates: [/workspace/a/app.jar /workspace/a-b/app.jar]")) ∧
    stringsSorted ["/workspace/a/app.jar", "/workspace/a-b/app.jar"] = false ∧
    sortStrings ["/workspace/a/app.jar", "/workspace/a-b/app.jar"]
      = ["/workspace/a-b/app.jar", "/workspace/a/app.jar"] := by
  refine ⟨?_, ?_, ?_⟩
  · rfl
  · decide
  · decide

/-- Witness of C10: an executable jar is interesting. -/
theorem interestingFile_iff_witness :
    (examplePlatform [] [] [("/workspace/target/app.jar", exampleExecutable)]).ZipOpenReader
      exampleWorld.fs.app "/workspace/target/app.jar" = .ok exampleExecutable ∧
    ∃ r, (exampleApplication.interestingFile
      (examplePlatform [] [] [("/workspace/target/app.jar", exampleExecutable)])
      "/workspace/target/app.jar" exampleWorld).1 = .ok r :=
  ⟨rfl, (interestingFile_iff
    (examplePlatform [] [] [("/workspace/target/app.jar", exampleExecutable)])
    exampleApplication "/workspace/target/app.jar" exampleWorld exampleExecutable rfl
    (by
      intro f hf _
      simp only [exampleExecutable, List.mem_cons, List.mem_singleton, List.not_mem_nil,
        or_false] at hf
      rcases hf with h | h <;> subst h <;> exact ⟨_, _, rfl, rfl⟩)).1⟩

/-! ## Properties of `Application.Contribute` -/

theorem mem_insertString (x y : String) (l : List String) :
    y ∈ insertString x l ↔ y = x ∨ y ∈ l := by
  induction l with
  | nil => simp [insertString]
  | cons z zs ih =>
    unfold insertString
    split
    · simp
    · simp only [List.mem_cons, ih]
      tauto

theorem mem_sortStrings (y : String) (l : List String) : y ∈ sortStrings l ↔ y ∈ l := by
  induction l with
  | nil => simp [sortStrings]
  | cons x xs ih => simp [sortStrings, mem_insertString, ih]

theorem executions_append (xs ys : List Event) :
    executions (xs ++ ys) = executions xs + executions ys := by
  simp [executions, List.countP_append]

theorem executions_zipOpenReader (paths : List String) :
    executions (paths.map Event.zipOpenReader) = 0 := by
  induction paths with
  | nil => rfl
  | cons p ps ih =>
    simp only [List.map_cons, executions, List.countP_cons] at ih ⊢
    simp [ih]

/-- What the removal loop leaves behind: when it ends without error the entries
named in `cs` are gone from the application directory, the layer files are
untouched; in every case the events it adds are no executions. -/
theorem removeChildren_spec (P : Platform) (a : Application) (cs : List String) :
    ∀ (w : World),
      (∃ evs, (a.removeChildren P cs w).2.trace = w.trace ++ evs ∧ executions evs = 0) ∧
      (a.removeChildren P cs w).2.fs.layers = w.fs.layers ∧
      ((∃ u, (a.removeChildren P cs w).1 = .ok u) →
        (a.removeChildren P cs w).2.fs.app = w.fs.app.filter (fun kv => kv.1 ∉ cs)) := by
  induction cs with
  | nil =>
    intro w
    refine ⟨⟨[], by simp [Application.removeChildren], rfl⟩, rfl, ?_⟩
    intro _
    simp [Application.removeChildren]
  | cons c cs ih =>
    intro w
    cases hr : P.RemoveAllError (filepathJoin [a.ApplicationPath, c]) with
    | some err =>
      have e : a.removeChildren P (c :: cs) w =
          (.error (.wrap ("unable to remove " ++ filepathJoin [a.ApplicationPath, c] ++ ": ") err),
            w.log (.removeAll (filepathJoin [a.ApplicationPath, c]))) := by
        unfold Application.removeChildren
        simp only [hr]
      rw [e]
      refine ⟨⟨[.removeAll (filepathJoin [a.ApplicationPath, c])], rfl, rfl⟩, rfl, ?_⟩
      rintro ⟨u, hu⟩
      simp at hu
    | none =>
      have e : a.removeChildren P (c :: cs) w = a.removeChildren P cs
          { fs := { app := w.fs.app.filter (fun kv => kv.1 ≠ c), layers := w.fs.layers }
            trace := w.trace ++ [.removeAll (filepathJoin [a.ApplicationPath, c])] } := by
        rw [Application.removeChildren]
        simp only [hr]
        rfl
      rw [e]
      obtain ⟨⟨evs, hevs, hex⟩, hlay, happ⟩ := ih
        { fs := { app := w.fs.app.filter (fun kv => kv.1 ≠ c), layers := w.fs.layers }
          trace := w.trace ++ [.removeAll (filepathJoin [a.ApplicationPath, c])] }
      refine ⟨⟨.removeAll (filepathJoin [a.ApplicationPath, c]) :: evs, ?_, ?_⟩, hlay, ?_⟩
      · rw [hevs]; simp
      · simpa [executions, List.countP_cons] using hex
      · intro hok
        rw [happ hok, List.filter_filter]
        congr 1
        funext kv
        simp only [decide_not, List.mem_cons, not_or, Bool.decide_and]
        exact Bool.and_comm _ _

theorem filter_not_mem_names (dir : Dir) :
    dir.filter (fun kv => kv.1 ∉ sortStrings (dir.map Prod.fst)) = [] := by
  rw [List.filter_eq_nil_iff]
  intro kv hkv
  simp only [decide_not, Bool.not_eq_true', decide_eq_false_iff_not, not_not, mem_sortStrings]
  exact List.mem_map_of_mem Prod.fst hkv

theorem executions_singleton_execute (e : Execution) : executions [Event.execute e] = 1 := rfl

/-- The function handed to the layer contributor runs the build at most once;
when it ends without error it has run it exactly once, the layer it returns is
the given one marked as cached, and `application.zip` of the layer holds the bytes
of the artifact. -/
theorem contributeFunc_spec (P : Platform) (a : Application) (layer : Layer) (w : World) :
    (∃ evs, (a.contributeFunc P layer w).2.trace = w.trace ++ evs ∧ executions evs ≤ 1) ∧
    (∀ l, (a.contributeFunc P layer w).1 = .ok l →
      l = { layer with Cache := true } ∧
      (∃ data, (a.contributeFunc P layer w).2.fs.layers.lookup
        (filepathJoin [layer.Path, "application.zip"]) = some data) ∧
      ∃ evs, (a.contributeFunc P layer w).2.trace = w.trace ++ evs ∧ executions evs = 1) := by
  unfold Application.contributeFunc
  cases h1 : a.ResolveArguments P with
  | error err =>
    refine ⟨⟨[], by simp, by simp [executions]⟩, ?_⟩
    intro l hl
    simp at hl
  | ok arguments =>
    simp only []
    generalize hE : ({ Command := a.Command, Args := arguments, Dir := a.ApplicationPath } : Execution) = e
    cases h2 : a.Executor e (w.log (.execute e)).fs with
    | mk oe fs1 =>
      cases oe with
      | some err =>
        refine ⟨⟨[.execute e], rfl, by simp [executions]⟩, ?_⟩
        intro l hl
        simp at hl
      | none =>
        simp only []
        obtain ⟨paths, hp⟩ := resolveArtifact_trace P a
          { fs := fs1, trace := (w.log (.execute e)).trace }
        generalize hG : Event.glob (filepathJoin [a.ApplicationPath, a.resolvePattern P]) = g at hp
        have hg0 : executions [g] = 0 := by subst hG; rfl
        cases h3 : a.ResolveArtifact P { fs := fs1, trace := (w.log (.execute e)).trace } with
        | mk r w3 =>
          rw [h3] at hp
          simp only [log_trace] at hp
          have hex : executions (Event.execute e :: g :: paths.map Event.zipOpenReader) = 1 := by
            have := executions_append [Event.execute e] (g :: paths.map Event.zipOpenReader)
            have h5 := executions_append [g] (paths.map Event.zipOpenReader)
            simp only [List.singleton_append] at this h5
            rw [this, h5, hg0, executions_zipOpenReader, executions_singleton_execute]
          have htr : w3.trace = w.trace ++ (Event.execute e :: g :: paths.map Event.zipOpenReader) := by
            rw [hp]; simp
          cases r with
          | error err =>
            refine ⟨⟨_, htr, by omega⟩, ?_⟩
            intro l hl
            simp at hl
          | ok artifact =>
            simp only []
            cases h4 : P.OpenArtifact w3.fs.app artifact with
            | error err =>
              refine ⟨⟨Event.execute e :: g :: paths.map Event.zipOpenReader ++ [.openFile artifact],
                by simp [log_trace, htr], ?_⟩, ?_⟩
              · rw [executions_append, hex]; simp [executions]
              · intro l hl
                simp at hl
            | ok data =>
              simp only []
              have hex2 : executions (Event.execute e :: g :: paths.map Event.zipOpenReader
                  ++ [.openFile artifact, .copyFile (filepathJoin [layer.Path, "application.zip"])]) = 1 := by
                rw [executions_append, hex]; simp [executions]
              cases h5 : P.CopyFileError (filepathJoin [layer.Path, "application.zip"]) with
              | some err =>
                refine ⟨⟨_, by simp [log_trace, htr], hex2.le⟩, ?_⟩
                intro l hl
                simp at hl
              | none =>
                refine ⟨⟨_, by simp [log_trace, htr], hex2.le⟩, ?_⟩
                intro l hl
                simp only [Except.ok.injEq] at hl
                refine ⟨hl.symm, ⟨data, ?_⟩, ⟨_, by simp [log_trace, htr], hex2⟩⟩
                simp [writeLayerFile, List.lookup]

/-- The replacement step adds no execution to the trace; when it ends without
error it returns the layer it was given, leaves the layer files as they were, and
the application directory is the expansion of `application.zip` of the layer into
the empty directory. -/
theorem replaceSource_spec (P : Platform) (a : Application) (layer : Layer) (w : World) :
    (∃ evs, (a.replaceSource P layer w).2.trace = w.trace ++ evs ∧ executions evs = 0) ∧
    (∀ l, (a.replaceSource P layer w).1 = .ok l →
      l = layer ∧ (a.replaceSource P layer w).2.fs.layers = w.fs.layers ∧
      ∃ zip, w.fs.layers.lookup (filepathJoin [layer.Path, "application.zip"]) = some zip ∧
        P.ExtractZip zip [] = .ok (a.replaceSource P layer w).2.fs.app) := by
  unfold Application.replaceSource
  cases h1 : P.ReadDirError a.ApplicationPath with
  | some err =>
    refine ⟨⟨[.readDir a.ApplicationPath], rfl, rfl⟩, ?_⟩
    intro l hl
    simp at hl
  | none =>
    simp only []
    obtain ⟨⟨evs, hevs, hex⟩, hlay, happ⟩ := removeChildren_spec P a
      (sortStrings ((w.log (.readDir a.ApplicationPath)).fs.app.map Prod.fst))
      (w.log (.readDir a.ApplicationPath))
    cases h2 : a.removeChildren P
        (sortStrings ((w.log (.readDir a.ApplicationPath)).fs.app.map Prod.fst))
        (w.log (.readDir a.ApplicationPath)) with
    | mk r w3 =>
      rw [h2] at hevs hlay happ
      simp only [log_trace, log_fs] at hevs hlay happ
      have hex1 : executions (Event.readDir a.ApplicationPath :: evs) = 0 := by
        have := executions_append [Event.readDir a.ApplicationPath] evs
        simp only [List.singleton_append] at this
        rw [this, hex]
        rfl
      have htr : w3.trace = w.trace ++ (Event.readDir a.ApplicationPath :: evs) := by
        rw [hevs]; simp
      cases r with
      | error err =>
        refine ⟨⟨_, htr, hex1⟩, ?_⟩
        intro l hl
        simp at hl
      | ok u =>
        simp only []
        have hempty : w3.fs.app = [] := by
          rw [happ ⟨u, rfl⟩]
          exact filter_not_mem_names w.fs.app
        have hex2 : executions (Event.readDir a.ApplicationPath :: evs ++
            [.openFile (filepathJoin [layer.Path, "application.zip"])]) = 0 := by
          rw [executions_append, hex1]; rfl
        cases h3 : w3.fs.layers.lookup (filepathJoin [layer.Path, "application.zip"]) with
        | none =>
          refine ⟨⟨_, by simp [log_trace, htr], hex2⟩, ?_⟩
          intro l hl
          simp at hl
        | some data =>
          simp only []
          have hex3 : executions (Event.readDir a.ApplicationPath :: evs ++
              [.openFile (filepathJoin [layer.Path, "application.zip"]),
                .extractZip (filepathJoin [layer.Path, "application.zip"]) a.ApplicationPath]) = 0 := by
            rw [executions_append, hex1]; rfl
          cases h4 : P.ExtractZip data (w3.log
              (.openFile (filepathJoin [layer.Path, "application.zip"]))).fs.app with
          | error err =>
            refine ⟨⟨_, by simp [log_trace, htr], hex3⟩, ?_⟩
            intro l hl
            simp at hl
          | ok dir =>
            refine ⟨⟨_, by simp [log_trace, htr], hex3⟩, ?_⟩
            intro l hl
            simp only [Except.ok.injEq] at hl
            refine ⟨hl.symm, ?_, data, ?_, ?_⟩
            · simpa [log_fs] using hlay
            · rw [← hlay]; exact h3
            · rw [log_fs, hempty] at h4
              exact h4

/-- The layer contributor on the function of `Application.Contribute`: on equal
metadata nothing happens; otherwise the function runs once, and when it ends
without error the returned layer is the given one, marked as cached, with the
expected metadata decoded into its metadata and `application.zip` present. -/
theorem layerContribute_spec (P : Platform) (a : Application) (layer : Layer) (w : World) :
    (a.ExpectedMetadata = layer.Metadata →
      libpak.LayerContributor.Contribute a.ExpectedMetadata layer (a.contributeFunc P layer) w
        = (.ok layer, w)) ∧
    (a.ExpectedMetadata ≠ layer.Metadata →
      (∃ evs, (libpak.LayerContributor.Contribute a.ExpectedMetadata layer
          (a.contributeFunc P layer) w).2.trace = w.trace ++ evs ∧ executions evs ≤ 1) ∧
      (∀ l, (libpak.LayerContributor.Contribute a.ExpectedMetadata layer
          (a.contributeFunc P layer) w).1 = .ok l →
        l = { layer with Cache := true,
                         Metadata := mergeMetadata a.ExpectedMetadata layer.Metadata } ∧
        (∃ data, (libpak.LayerContributor.Contribute a.ExpectedMetadata layer
          (a.contributeFunc P layer) w).2.fs.layers.lookup
            (filepathJoin [layer.Path, "application.zip"]) = some data) ∧
        ∃ evs, (libpak.LayerContributor.Contribute a.ExpectedMetadata layer
          (a.contributeFunc P layer) w).2.trace = w.trace ++ evs ∧ executions evs = 1)) := by
  constructor
  · intro h
    unfold libpak.LayerContributor.Contribute
    rw [if_pos h]
  · intro h
    unfold libpak.LayerContributor.Contribute
    rw [if_neg h]
    have hw0 : (resetLayer w layer.Path).trace = w.trace ++ [Event.resetLayer layer.Path] := rfl
    generalize resetLayer w layer.Path = w0 at hw0
    obtain ⟨⟨evs, hevs, hex⟩, hok⟩ := contributeFunc_spec P a layer w0
    cases hr : a.contributeFunc P layer w0 with
    | mk r w2 =>
      rw [hr] at hevs hok
      simp only at hevs hok
      have hreset : ∀ es, executions (Event.resetLayer layer.Path :: es) = executions es := by
        intro es
        have := executions_append [Event.resetLayer layer.Path] es
        simp only [List.singleton_append] at this
        rw [this]
        simp [executions]
      cases r with
      | error err =>
        refine ⟨⟨Event.resetLayer layer.Path :: evs, by simp [hevs, hw0], by rw [hreset]; exact hex⟩, ?_⟩
        intro l hl
        simp at hl
      | ok l0 =>
        refine ⟨⟨Event.resetLayer layer.Path :: evs, by simp [hevs, hw0], by rw [hreset]; exact hex⟩, ?_⟩
        intro l hl
        simp only [Except.ok.injEq] at hl
        obtain ⟨hl0, hdata, evs1, hevs1, hex1⟩ := hok l0 rfl
        refine ⟨?_, hdata, Event.resetLayer layer.Path :: evs1, by simp [hevs1, hw0], by rw [hreset]; exact hex1⟩
        rw [← hl, hl0]

/-- Summary of one call of `Application.Contribute`: the events it adds hold at
most one execution, none when the metadata matched; when the call ends without
error the returned layer keeps its path, its metadata are those of the given
layer when they matched and otherwise those with the expected metadata decoded
into them, the build ran exactly once unless the metadata matched, and the application
directory is the expansion of `application.zip` of the layer into the empty
directory. -/
theorem contribute_spec (P : Platform) (a : Application) (layer : Layer) (w : World) :
    ∃ evs, (a.Contribute P layer w).2.trace = w.trace ++ evs ∧ executions evs ≤ 1 ∧
      (a.ExpectedMetadata = layer.Metadata → executions evs = 0) ∧
      ∀ l, (a.Contribute P layer w).1 = .ok l →
        l.Path = layer.Path ∧
        ((a.ExpectedMetadata = layer.Metadata → l.Metadata = layer.Metadata) ∧
          (a.ExpectedMetadata ≠ layer.Metadata →
            l.Metadata = mergeMetadata a.ExpectedMetadata layer.Metadata)) ∧
        (a.ExpectedMetadata ≠ layer.Metadata → executions evs = 1) ∧
        ∃ zip, (a.Contribute P layer w).2.fs.layers.lookup
            (filepathJoin [layer.Path, "application.zip"]) = some zip ∧
          P.ExtractZip zip [] = .ok (a.Contribute P layer w).2.fs.app ∧
          (a.ExpectedMetadata = layer.Metadata →
            w.fs.layers.lookup (filepathJoin [layer.Path, "application.zip"]) = some zip) := by
  by_cases hit : a.ExpectedMetadata = layer.Metadata
  · have e : a.Contribute P layer w = a.replaceSource P layer w := by
      unfold Application.Contribute
      rw [(layerContribute_spec P a layer w).1 hit]
    rw [e]
    obtain ⟨⟨evs, hevs, hex⟩, hok⟩ := replaceSource_spec P a layer w
    refine ⟨evs, hevs, by omega, fun _ => hex, ?_⟩
    intro l hl
    obtain ⟨hl1, hlay, zip, hzip, hext⟩ := hok l hl
    refine ⟨by rw [hl1], ⟨fun _ => by rw [hl1], fun h => absurd hit h⟩,
      fun h => absurd hit h, zip, ?_, hext, fun _ => hzip⟩
    rw [hlay]
    exact hzip
  · obtain ⟨⟨evs, hevs, hex⟩, hok⟩ := (layerContribute_spec P a layer w).2 hit
    cases hr : libpak.LayerContributor.Contribute a.ExpectedMetadata layer
        (a.contributeFunc P layer) w with
    | mk r w1 =>
      rw [hr] at hevs hok
      simp only at hevs hok
      cases r with
      | error err =>
        have e : a.Contribute P layer w =
            (.error (.wrap "unable to contribute application layer: " err), w1) := by
          unfold Application.Contribute
          rw [hr]
        rw [e]
        refine ⟨evs, hevs, hex, fun h => absurd h hit, ?_⟩
        intro l hl
        simp at hl
      | ok l0 =>
        have e : a.Contribute P layer w = a.replaceSource P l0 w1 := by
          unfold Application.Contribute
          rw [hr]
        rw [e]
        obtain ⟨hl0, _, evs1, hevs1, hex1⟩ := hok l0 rfl
        obtain ⟨⟨evs2, hevs2, hex2⟩, hok2⟩ := replaceSource_spec P a l0 w1
        have hevs3 : evs1 = evs := List.append_cancel_left (hevs1.symm.trans hevs)
        have hp : l0.Path = layer.Path := by rw [hl0]
        refine ⟨evs ++ evs2, by rw [hevs2, hevs, List.append_assoc],
          by rw [executions_append, hex2]; omega, fun h => absurd h hit, ?_⟩
        intro l hl
        obtain ⟨hl1, hlay, zip, hzip, hext⟩ := hok2 l hl
        refine ⟨by rw [hl1, hp], ⟨fun h => absurd h hit, fun _ => by rw [hl1, hl0]⟩, ?_,
          zip, ?_, hext, fun h => absurd h hit⟩
        · intro _
          rw [executions_append, hex2, ← hevs3, hex1]
        · rw [hlay, ← hp]
          exact hzip

/-- C1. Whenever `Contribute` returns without error, the application directory
afterwards is exactly what expanding `application.zip` of the returned layer into
the empty directory gives, so none of the entries that were under the
application path before the call is left. This holds when the metadata matched
(the build did not run and the archive is the one stored before the call) and
when it did not (the build ran once). -/
theorem contribute_replaces_source (P : Platform) (a : Application) (layer layer1 : Layer)
    (w w1 : World) (h : a.Contribute P layer w = (.ok layer1, w1)) :
    ∃ zip, w1.fs.layers.lookup (filepathJoin [layer1.Path, "application.zip"]) = some zip ∧
      P.ExtractZip zip [] = .ok w1.fs.app ∧
      (a.ExpectedMetadata = layer.Metadata →
        executions (w1.trace.drop w.trace.length) = 0 ∧
        w.fs.layers.lookup (filepathJoin [layer.Path, "application.zip"]) = some zip) ∧
      (a.ExpectedMetadata ≠ layer.Metadata →
        executions (w1.trace.drop w.trace.length) = 1) := by
  obtain ⟨evs, hevs, _, hhit, hok⟩ := contribute_spec P a layer w
  rw [h] at hevs hok
  obtain ⟨hp, _, hmiss, zip, hzip, hext, hstored⟩ := hok layer1 rfl
  have hdrop : w1.trace.drop w.trace.length = evs := by
    show List.drop w.trace.length w1.trace = evs
    rw [hevs]
    exact List.drop_left _ _
  refine ⟨zip, ?_, hext, ?_, ?_⟩
  · rw [hp]; exact hzip
  · intro hit
    exact ⟨by rw [hdrop]; exact hhit hit, hstored hit⟩
  · intro miss
    rw [hdrop]
    exact hmiss miss

theorem mergeMetadata_files (files : List FileEntry) (existing : Metadata)
    (hkeys : ∀ kv ∈ existing, kv.1 = "files") :
    mergeMetadata [("files", files)] existing = [("files", files)] := by
  have hf : existing.filter (fun kv => kv.1 ≠ "files") = [] := by
    rw [List.filter_eq_nil_iff]
    intro kv hkv
    simp [hkeys kv hkv]
  simp only [mergeMetadata, List.foldl_cons, List.foldl_nil, setKey, hf, insertEntry]

/-- C2, counterexample. The layer carries the key `previous` in its metadata. The
first call builds, succeeds and returns the layer with the key `files` added next
to `previous`; these metadata differ from the expected ones, so the second call,
on the returned layer, runs the build again: two executions in total. -/
theorem contribute_twice_counterexample :
    (∃ layer1, (exampleApplication.Contribute oneArtifactPlatform previousLayer exampleWorld).1
      = .ok layer1) ∧
    (returnedLayer
      (exampleApplication.Contribute oneArtifactPlatform previousLayer exampleWorld).1).Metadata.map
        Prod.fst = ["files", "previous"] ∧
    executions
      (exampleApplication.Contribute oneArtifactPlatform previousLayer exampleWorld).2.trace = 1 ∧
    executions (exampleApplication.Contribute oneArtifactPlatform
      (returnedLayer
        (exampleApplication.Contribute oneArtifactPlatform previousLayer exampleWorld).1)
      (exampleApplication.Contribute oneArtifactPlatform previousLayer exampleWorld).2).2.trace
      = 2 :=
  ⟨⟨_, rfl⟩, by decide, by decide, by decide⟩

/-- C2, as amended. For an application whose expected metadata are a file listing
under the key `files`, as `NewApplication` computes them, and a layer whose
metadata hold no key other than `files`: when a first call of `Contribute`
returns without error the layer `layer1`, a second call of `Contribute` on
`layer1` does not run the build command, and the two calls together run it at
most once. -/
theorem contribute_twice_executes_once (P : Platform) (a : Application) (layer layer1 : Layer)
    (w w1 : World) (files : List FileEntry)
    (hexp : a.ExpectedMetadata = [("files", files)])
    (hkeys : ∀ kv ∈ layer.Metadata, kv.1 = "files")
    (h : a.Contribute P layer w = (.ok layer1, w1)) :
    executions ((a.Contribute P layer1 w1).2.trace.drop w1.trace.length) = 0 ∧
    executions ((a.Contribute P layer1 w1).2.trace.drop w.trace.length) ≤ 1 := by
  obtain ⟨evs, hevs, hle, _, hok⟩ := contribute_spec P a layer w
  rw [h] at hevs hok
  obtain ⟨_, ⟨hmhit, hmmiss⟩, _⟩ := hok layer1 rfl
  have hmeta : a.ExpectedMetadata = layer1.Metadata := by
    by_cases hit : a.ExpectedMetadata = layer.Metadata
    · rw [hmhit hit]
      exact hit
    · rw [hmmiss hit, hexp, mergeMetadata_files files layer.Metadata hkeys]
  obtain ⟨evs2, hevs2, _, hhit2, _⟩ := contribute_spec P a layer1 w1
  have h0 : executions evs2 = 0 := hhit2 hmeta
  constructor
  · rw [hevs2, List.drop_left]
    exact h0
  · rw [hevs2]
    have : w1.trace ++ evs2 = w.trace ++ (evs ++ evs2) := by
      have hevs1 : w1.trace = w.trace ++ evs := hevs
      rw [hevs1, List.append_assoc]
    rw [this, List.drop_left, executions_append, h0]
    omega

/-- Witness of C1: a fresh layer, a build that leaves one artifact; afterwards the
application directory holds what the archive expands to. -/
theorem contribute_replaces_source_witness :
    (exampleApplication.Contribute oneArtifactPlatform exampleLayer exampleWorld).2.fs.app
      = [("BOOT-INF", Node.file [80, 75, 3, 4])] ∧
    ∃ zip,
      (exampleApplication.Contribute oneArtifactPlatform exampleLayer exampleWorld).2.fs.layers.lookup
        "/layers/build-system/application/application.zip" = some zip ∧
      oneArtifactPlatform.ExtractZip zip [] =
        .ok (exampleApplication.Contribute oneArtifactPlatform exampleLayer exampleWorld).2.fs.app :=
  ⟨rfl,
    (contribute_replaces_source oneArtifactPlatform exampleApplication exampleLayer
      (returnedLayer (exampleApplication.Contribute oneArtifactPlatform exampleLayer exampleWorld).1)
      exampleWorld
      (exampleApplication.Contribute oneArtifactPlatform exampleLayer exampleWorld).2 rfl).imp
      (fun _ hz => ⟨hz.1, hz.2.1⟩)⟩

/-- Witness of C2 as amended: a layer with an older file listing, a first call
that builds and succeeds, then a second call on the layer it returned. -/
theorem contribute_twice_executes_once_witness :
    (∃ layer1, (exampleApplication.Contribute oneArtifactPlatform staleLayer exampleWorld).1
      = .ok layer1) ∧
    executions (exampleApplication.Contribute oneArtifactPlatform staleLayer exampleWorld).2.trace
      = 1 ∧
    executions ((exampleApplication.Contribute oneArtifactPlatform
      (returnedLayer (exampleApplication.Contribute oneArtifactPlatform staleLayer exampleWorld).1)
      (exampleApplication.Contribute oneArtifactPlatform staleLayer exampleWorld).2).2.trace.drop
        exampleWorld.trace.length) ≤ 1 :=
  ⟨⟨_, rfl⟩, by decide,
    (contribute_twice_executes_once oneArtifactPlatform exampleApplication staleLayer
      (returnedLayer (exampleApplication.Contribute oneArtifactPlatform staleLayer exampleWorld).1)
      exampleWorld
      (exampleApplication.Contribute oneArtifactPlatform staleLayer exampleWorld).2
      [{ Path := "pom.xml", Mode := "-rw-r--r--",
         ModificationTime := "2020-05-01T00:00:00Z", Size := 1 }]
      rfl
      (by
        intro kv hkv
        simp only [staleLayer, List.mem_singleton] at hkv
        rw [hkv])
      rfl).2⟩

/-! ## Properties of `Build.Build` -/

theorem systemsLoop_skip (P : Platform) (context : BuildContext) (pr : PlanEntryResolver)
    (dr : DependencyResolver) (dc : DependencyCache) (s : System) (post : List System)
    (hs : s.Participate pr = .ok false) (pre : List System) :
    ∀ (result : BuildResult) (w : World),
      Build.systemsLoop P context pr dr dc (pre ++ s :: post) result w =
        Build.systemsLoop P context pr dr dc (pre ++ post) result w := by
  induction pre with
  | nil =>
    intro result w
    simp only [List.nil_append]
    rw [Build.systemsLoop, hs]
  | cons t ts ih =>
    intro result w
    simp only [List.cons_append]
    simp only [Build.systemsLoop]
    cases ht : t.Participate pr with
    | error err => rfl
    | ok b =>
      cases b with
      | false => exact ih result w
      | true =>
        simp only []
        cases Build.contributeSystem P context dr dc t result w with
        | mk r w1 =>
          cases r with
          | error err => rfl
          | ok r1 => exact ih r1 w1

theorem systemsLoop_none (P : Platform) (context : BuildContext) (pr : PlanEntryResolver)
    (dr : DependencyResolver) (dc : DependencyCache) (systems : List System)
    (h : ∀ s ∈ systems, s.Participate pr = .ok false) (result : BuildResult) (w : World) :
    Build.systemsLoop P context pr dr dc systems result w = (.ok result, w) := by
  induction systems with
  | nil => rfl
  | cons t ts ih =>
    rw [Build.systemsLoop, h t (List.mem_cons_self _ _)]
    exact ih (fun s hs => h s (List.mem_cons_of_mem _ hs))

/-- C4. A registered system whose `Participate` returns `(false, nil)` has no
effect on `Build`: the result, the error and the collaborator calls are those of
the build without that system. When every registered system returns
`(false, nil)` and the dependency resolver can be created, `Build` returns the
zero `BuildResult`, with no layers, and no error. -/
theorem build_skips_non_participants (P : Platform) (L : Libpak) (context : BuildContext)
    (w : World) :
    (∀ (pre post : List System) (s : System),
      s.Participate { Plan := context.Plan } = .ok false →
      Build.Build P L { Systems := pre ++ s :: post } context w =
        Build.Build P L { Systems := pre ++ post } context w) ∧
    (∀ (systems : List System) (dr : DependencyResolver),
      L.NewDependencyResolver context = .ok dr →
      (∀ s ∈ systems, s.Participate { Plan := context.Plan } = .ok false) →
      Build.Build P L { Systems := systems } context w = (.ok BuildResult.zero, w) ∧
      BuildResult.zero.Layers = []) := by
  constructor
  · intro pre post s hs
    unfold Build.Build
    cases L.NewDependencyResolver context with
    | error err => rfl
    | ok dr => exact systemsLoop_skip P context _ dr _ s post hs pre _ w
  · intro systems dr hdr hall
    refine ⟨?_, rfl⟩
    unfold Build.Build
    rw [hdr]
    exact systemsLoop_none P context _ dr _ systems hall _ w

/-- C3, counterexample. One registered system, Maven, participates and there is no
wrapper, but its `CachePath` fails because the current user cannot be determined:
`Build` returns that error and no layers. -/
theorem build_single_system_counterexample :
    (mavenSystem (.error noCurrentUser)).Participate { Plan := exampleContext.Plan } = .ok true ∧
    (∃ d, (mavenSystem (.error noCurrentUser)).DistributionLayer
      { Dependencies := ["gradle", "maven"] } { Path := "/cnb/buildpack/dependencies" }
      BuildResult.zero.Plan = .ok d) ∧
    (Build.Build noArtifactPlatform exampleLibpak
      { Systems := [mavenSystem (.error noCurrentUser)] } exampleContext exampleWorld).1
      = .error (.wrap "unable to determine cache location\n" noCurrentUser) :=
  ⟨rfl, ⟨_, rfl⟩, rfl⟩

theorem appendLayers_ok (P : Platform) (context : BuildContext) (s : System) (command : String)
    (result : BuildResult) (w : World) (cache : String) (files : List FileEntry)
    (hcache : s.CachePath = .ok cache)
    (hlist : P.NewFileListing w.fs.app context.ApplicationPath = .ok files) :
    Build.appendLayers P context s command result w =
      (.ok { Layers := result.Layers ++ [LayerContributor.cache (NewCache cache),
              LayerContributor.application (applicationFor P context s command files)]
             Plan := result.Plan },
        w.log (.fileListing context.ApplicationPath)) := by
  unfold Build.appendLayers NewApplication applicationFor
  simp only [hcache, hlist, List.append_assoc, List.singleton_append]

/-- C3, as amended. For a build with one registered system that participates,
provided the dependency resolver can be created, `CachePath` returns no error and
the file listing of the application path can be taken: when no file exists at
the wrapper path and `DistributionLayer` returns a layer, `Build` returns exactly
that layer, the cache layer and the application layer, in this order, and the
command of the application is `Distribution` of the layers path; when the
wrapper exists, `Build` returns exactly the cache layer and the application
layer, the command of the application is the wrapper path under the application
path, and `DistributionLayer` is not called. -/
theorem build_single_system (P : Platform) (L : Libpak) (s : System) (context : BuildContext)
    (w : World) (dr : DependencyResolver) (cache : String) (files : List FileEntry)
    (hdr : L.NewDependencyResolver context = .ok dr)
    (hpart : s.Participate { Plan := context.Plan } = .ok true)
    (hcache : s.CachePath = .ok cache)
    (hlist : P.NewFileListing w.fs.app context.ApplicationPath = .ok files) :
    (P.Stat w.fs.app (filepathJoin [context.ApplicationPath, s.Wrapper]) = .notExist →
      ∀ d plan, s.DistributionLayer dr (L.NewDependencyCache context.Buildpack)
          BuildResult.zero.Plan = .ok (d, plan) →
        ∃ app w1,
          Build.Build P L { Systems := [s] } context w =
            (.ok { Layers := [d, LayerContributor.cache (NewCache cache),
                    LayerContributor.application app], Plan := plan }, w1) ∧
          [d, LayerContributor.cache (NewCache cache), LayerContributor.application app].map
            LayerContributor.Name = [d.Name, "cache", "application"] ∧
          app.Command = s.Distribution context.LayersPath ∧
          app.DefaultArguments = s.DefaultArguments ∧ app.DefaultTarget = s.DefaultTarget) ∧
    (P.Stat w.fs.app (filepathJoin [context.ApplicationPath, s.Wrapper]) = .found →
        ∃ app w1,
          Build.Build P L { Systems := [s] } context w =
            (.ok { Layers := [LayerContributor.cache (NewCache cache),
                    LayerContributor.application app], Plan := BuildResult.zero.Plan }, w1) ∧
          [LayerContributor.cache (NewCache cache), LayerContributor.application app].map
            LayerContributor.Name = ["cache", "application"] ∧
          app.Command = filepathJoin [context.ApplicationPath, s.Wrapper] ∧
          app.DefaultArguments = s.DefaultArguments ∧ app.DefaultTarget = s.DefaultTarget ∧
          Event.distributionLayer ∉ w1.trace.drop w.trace.length) := by
  constructor
  · intro hstat d plan hd
    refine ⟨applicationFor P context s (s.Distribution context.LayersPath) files,
      ((w.log (.stat (filepathJoin [context.ApplicationPath, s.Wrapper]))).log
        .distributionLayer).log (.fileListing context.ApplicationPath), ?_, rfl, rfl, rfl, rfl⟩
    unfold Build.Build
    simp only [hdr]
    rw [Build.systemsLoop, hpart]
    simp only []
    unfold Build.contributeSystem
    simp only [hstat, hd]
    rw [appendLayers_ok P context s _ _ _ cache files hcache (by simpa [log_fs] using hlist)]
    rfl
  · intro hstat
    refine ⟨applicationFor P context s (filepathJoin [context.ApplicationPath, s.Wrapper]) files,
      (w.log (.stat (filepathJoin [context.ApplicationPath, s.Wrapper]))).log
        (.fileListing context.ApplicationPath), ?_, rfl, rfl, rfl, rfl, ?_⟩
    · unfold Build.Build
      simp only [hdr]
      rw [Build.systemsLoop, hpart]
      simp only []
      unfold Build.contributeSystem
      simp only [hstat]
      rw [appendLayers_ok P context s _ _ _ cache files hcache (by simpa [log_fs] using hlist)]
      rfl
    · simp [log_trace]

/-- Witness of C3 as amended: Maven with its wrapper present. -/
theorem build_single_system_witness :
    ∃ app w1,
      Build.Build wrapperPlatform exampleLibpak { Systems := [mavenSystem (.ok "/home/cnb/.m2")] }
          exampleContext exampleWorld =
        (.ok { Layers := [LayerContributor.cache (NewCache "/home/cnb/.m2"),
                LayerContributor.application app], Plan := BuildResult.zero.Plan }, w1) ∧
      app.Command = "/workspace/mvnw" ∧
      Event.distributionLayer ∉ w1.trace.drop exampleWorld.trace.length :=
  ((build_single_system wrapperPlatform exampleLibpak (mavenSystem (.ok "/home/cnb/.m2"))
      exampleContext exampleWorld { Dependencies := ["gradle", "maven"] } "/home/cnb/.m2" []
      rfl rfl rfl rfl).2 rfl).imp
    (fun _ h => h.imp (fun _ h2 => ⟨h2.1, h2.2.2.1, h2.2.2.2.2.2⟩))

/-- Witness of C4: Gradle does not participate in a Maven build, so registering it
in front of Maven changes nothing. -/
theorem build_skips_non_participants_witness :
    Build.Build noArtifactPlatform exampleLibpak
        { Systems := [gradleSystem, mavenSystem (.ok "/home/cnb/.m2")] } exampleContext exampleWorld =
      Build.Build noArtifactPlatform exampleLibpak
        { Systems := [mavenSystem (.ok "/home/cnb/.m2")] } exampleContext exampleWorld :=
  (build_skips_non_participants noArtifactPlatform exampleLibpak exampleContext exampleWorld).1
    [] [mavenSystem (.ok "/home/cnb/.m2")] gradleSystem rfl

/-- Witness of C9: with both overrides set the artifact override is the pattern. -/
theorem resolveArtifact_pattern_witness :
    exampleApplication.resolvePattern
      (examplePlatform [("BP_BUILT_MODULE", "api"), ("BP_BUILT_ARTIFACT", "api/target/api-*.jar")] [] [])
      = "api/target/api-*.jar" :=
  (resolveArtifact_pattern
    (examplePlatform [("BP_BUILT_MODULE", "api"), ("BP_BUILT_ARTIFACT", "api/target/api-*.jar")] [] [])
    exampleApplication exampleWorld).2.1 "api/target/api-*.jar" rfl

/-! ## Errors during investigation -/

/-- When the investigation of some candidate fails, the loop over the candidates
ends with the error of a candidate, wrapped with its path. -/
theorem investigate_error (P : Platform) (a : Application) (cs : List String) :
    ∀ (acc : List String) (w : World),
      (∃ c ∈ cs, ∃ e, a.verdict P w.fs.app c = .error e) →
      ∃ c ∈ cs, ∃ e, (a.investigate P cs acc w).1 =
        .error (.wrap ("unable to investigate " ++ c ++ ": ") e) := by
  induction cs with
  | nil =>
    intro acc w h
    obtain ⟨c, hc, _⟩ := h
    simp at hc
  | cons d ds ih =>
    intro acc w h
    rw [Application.investigate, interestingFile_eq]
    cases hv : a.verdict P w.fs.app d with
    | error err => exact ⟨d, List.mem_cons_self _ _, err, rfl⟩
    | ok b =>
      simp only []
      obtain ⟨c, hc, e, he⟩ := h
      have hcd : c ∈ ds := by
        rcases List.mem_cons.mp hc with h1 | h1
        · rw [h1, hv] at he
          cases he
        · exact h1
      obtain ⟨c1, hc1, e1, he1⟩ := ih (if b = true then acc ++ [d] else acc)
        (w.log (.zipOpenReader d)) ⟨c, hcd, e, by rw [log_fs]; exact he⟩
      exact ⟨c1, List.mem_cons_of_mem _ hc1, e1, he1⟩

/-- C11. With two or more candidates, when the investigation of any one of them
fails, `ResolveArtifact` returns an error and no path, whatever the other
candidates are; the error is that of investigating a candidate, so a failing
candidate is never skipped. -/
theorem resolveArtifact_investigation_error (P : Platform) (a : Application) (w : World)
    (cs : List String) (c : String) (e : Error)
    (hg : P.Glob w.fs.app (filepathJoin [a.ApplicationPath, a.resolvePattern P]) = .ok cs)
    (hlen : 2 ≤ cs.length) (hc : c ∈ cs)
    (he : (a.interestingFile P c w).1 = .error e) :
    ∃ c1 ∈ cs, ∃ e1, (a.ResolveArtifact P w).1 =
      .error (.wrap ("unable to investigate " ++ c1 ++ ": ") e1) := by
  rw [interestingFile_eq] at he
  have hne : cs.length ≠ 1 := by omega
  rw [resolveArtifact_unfold P a w cs hg hne]
  obtain ⟨c1, hc1, e1, he1⟩ := investigate_error P a cs []
    (w.log (.glob (filepathJoin [a.ApplicationPath, a.resolvePattern P])))
    ⟨c, hc, e, by rw [log_fs]; exact he⟩
  refine ⟨c1, hc1, e1, ?_⟩
  revert he1
  generalize a.investigate P cs []
    (w.log (.glob (filepathJoin [a.ApplicationPath, a.resolvePattern P]))) = r
  intro he1
  obtain ⟨r1, r2⟩ := r
  simp only at he1
  subst he1
  rfl

/-- Witness of C11: a file that is not a zip archive next to a war. -/
theorem resolveArtifact_investigation_error_witness :
    (exampleApplication.interestingFile
      (examplePlatform [] ["/workspace/target/notes.jar", "/workspace/target/web.war"]
        [("/workspace/target/web.war", exampleWar)])
      "/workspace/target/web.war" exampleWorld).1 = .ok true ∧
    ∃ c1 ∈ ["/workspace/target/notes.jar", "/workspace/target/web.war"], ∃ e1,
      (exampleApplication.ResolveArtifact
        (examplePlatform [] ["/workspace/target/notes.jar", "/workspace/target/web.war"]
          [("/workspace/target/web.war", exampleWar)])
        exampleWorld).1 = .error (.wrap ("unable to investigate " ++ c1 ++ ": ") e1) :=
  ⟨rfl, resolveArtifact_investigation_error
    (examplePlatform [] ["/workspace/target/notes.jar", "/workspace/target/web.war"]
      [("/workspace/target/web.war", exampleWar)])
    exampleApplication exampleWorld ["/workspace/target/notes.jar", "/workspace/target/web.war"]
    "/workspace/target/notes.jar"
    (.wrap "unable to open /workspace/target/notes.jar: " (.leaf "zip: not a valid zip file"))
    rfl (by decide) (by decide) rfl⟩

/-! ## Properties of `Application.ResolveArguments` -/

/-- C12. Without `BP_BUILD_ARGUMENTS` the result of `ResolveArguments` is
`DefaultArguments`, unchanged and without error. With it (the empty value
included) the result is what the tokenizer makes of the value, whatever the
defaults are. An error is returned exactly when the override is set and the
tokenizer fails on it. -/
theorem resolveArguments_spec (P : Platform) (a : Application) :
    (P.LookupEnv "BP_BUILD_ARGUMENTS" = none → a.ResolveArguments P = .ok a.DefaultArguments) ∧
    (∀ s arguments, P.LookupEnv "BP_BUILD_ARGUMENTS" = some s →
      P.ShellwordsParse s = .ok arguments →
      a.ResolveArguments P = .ok arguments ∧
      ∀ defaults, ({ a with DefaultArguments := defaults } : Application).ResolveArguments P
        = .ok arguments) ∧
    ((∃ err, a.ResolveArguments P = .error err) ↔
      ∃ s e, P.LookupEnv "BP_BUILD_ARGUMENTS" = some s ∧ P.ShellwordsParse s = .error e) := by
  refine ⟨?_, ?_, ?_⟩
  · intro h
    unfold Application.ResolveArguments
    simp only [h]
  · intro s arguments h hp
    constructor
    · unfold Application.ResolveArguments
      simp only [h, hp]
    · intro defaults
      unfold Application.ResolveArguments
      simp only [h, hp]
  · unfold Application.ResolveArguments
    cases h : P.LookupEnv "BP_BUILD_ARGUMENTS" with
    | none => simp
    | some s =>
      cases hp : P.ShellwordsParse s with
      | error e => simp [hp]
      | ok arguments => simp [hp]

/-- Witness of C12: the override `-x test build` gives three arguments, the empty
override gives none, and a value with an unterminated quote gives an error. -/
theorem resolveArguments_spec_witness :
    exampleApplication.ResolveArguments (argumentsPlatform "-x test build")
      = .ok ["-x", "test", "build"] ∧
    exampleApplication.ResolveArguments (argumentsPlatform "") = .ok [] ∧
    (∃ err, exampleApplication.ResolveArguments (argumentsPlatform "-x \"test") = .error err) ∧
    exampleApplication.ResolveArguments noArtifactPlatform
      = .ok ["-Dmaven.test.skip=true", "package"] :=
  ⟨((resolveArguments_spec (argumentsPlatform "-x test build") exampleApplication).2.1
      "-x test build" ["-x", "test", "build"] rfl rfl).1,
    ((resolveArguments_spec (argumentsPlatform "") exampleApplication).2.1 "" [] rfl rfl).1,
    (resolveArguments_spec (argumentsPlatform "-x \"test") exampleApplication).2.2.mpr
      ⟨"-x \"test", .leaf "invalid command line string", rfl, rfl⟩,
    (resolveArguments_spec noArtifactPlatform exampleApplication).1 rfl⟩

/-! ## Properties of detection -/

/-- C13, counterexample. With both `build.gradle` and `build.gradle.kts` under the
application path, `Gradle.Detect` on the empty result returns no error and sets
`Pass`, but leaves two plans, not one. -/
theorem gradle_detect_counterexample :
    Gradle.Detect (markerPlatform ["/workspace/build.gradle", "/workspace/build.gradle.kts"])
        exampleWorld.fs.app { ApplicationPath := "/workspace" } DetectResult.zero =
      (none,
        { Pass := true
          Plans := [{ Provides := ["gradle", "jvm-application"], Requires := ["gradle", "jdk"] },
                    { Provides := ["gradle", "jvm-application"], Requires := ["gradle", "jdk"] }] }) ∧
    (Gradle.Detect (markerPlatform ["/workspace/build.gradle", "/workspace/build.gradle.kts"])
        exampleWorld.fs.app { ApplicationPath := "/workspace" } DetectResult.zero).2.Plans.length
      = 2 :=
  ⟨rfl, rfl⟩

/-- C13, as amended. `Gradle.Detect` applied to the empty result: when neither
`build.gradle` nor `build.gradle.kts` exists it returns no error and leaves
`Pass` false with no plans; when exactly one of the two exists and the other
does not, it returns no error, sets `Pass` and leaves exactly one plan, which
provides `gradle` and `jvm-application` and requires `gradle` and `jdk`. -/
theorem gradle_detect_one_marker (P : Platform) (dir : Dir) (context : DetectContext) :
    (P.Stat dir (filepathJoin [context.ApplicationPath, "build.gradle"]) = .notExist →
      P.Stat dir (filepathJoin [context.ApplicationPath, "build.gradle.kts"]) = .notExist →
      Gradle.Detect P dir context DetectResult.zero = (none, { Pass := false, Plans := [] })) ∧
    (P.Stat dir (filepathJoin [context.ApplicationPath, "build.gradle"]) = .found →
      P.Stat dir (filepathJoin [context.ApplicationPath, "build.gradle.kts"]) = .notExist →
      Gradle.Detect P dir context DetectResult.zero =
        (none, { Pass := true
                 Plans := [{ Provides := ["gradle", "jvm-application"],
                             Requires := ["gradle", "jdk"] }] })) ∧
    (P.Stat dir (filepathJoin [context.ApplicationPath, "build.gradle"]) = .notExist →
      P.Stat dir (filepathJoin [context.ApplicationPath, "build.gradle.kts"]) = .found →
      Gradle.Detect P dir context DetectResult.zero =
        (none, { Pass := true
                 Plans := [{ Provides := ["gradle", "jvm-application"],
                             Requires := ["gradle", "jdk"] }] })) := by
  refine ⟨?_, ?_, ?_⟩ <;>
  · intro hg hk
    unfold Gradle.Detect
    simp only [Gradle.detectFiles, hg, hk]
    rfl

/-- Witness of C13 as amended: only `build.gradle.kts` exists. -/
theorem gradle_detect_one_marker_witness :
    Gradle.Detect (markerPlatform ["/workspace/build.gradle.kts"]) exampleWorld.fs.app
        { ApplicationPath := "/workspace" } DetectResult.zero =
      (none, { Pass := true
               Plans := [{ Provides := ["gradle", "jvm-application"],
                           Requires := ["gradle", "jdk"] }] }) :=
  (gradle_detect_one_marker (markerPlatform ["/workspace/build.gradle.kts"]) exampleWorld.fs.app
    { ApplicationPath := "/workspace" }).2.2 rfl rfl

/-- C14. `Maven.Detect`, for every initial result: when `pom.xml` does not exist
it returns no error and leaves the result as it was; when `pom.xml` exists it
returns no error, sets `Pass` and appends one plan, providing `maven` and
`jvm-application` and requiring `maven` and `jdk`, after the plans already
there; when probing `pom.xml` fails for another reason it returns an error and
leaves the result as it was; and these are the only cases with an error. -/
theorem maven_detect_spec (P : Platform) (dir : Dir) (context : DetectContext)
    (result : DetectResult) :
    (P.Stat dir (filepathJoin [context.ApplicationPath, "pom.xml"]) = .notExist →
      Maven.Detect P dir context result = (none, result)) ∧
    (P.Stat dir (filepathJoin [context.ApplicationPath, "pom.xml"]) = .found →
      Maven.Detect P dir context result =
        (none, { Pass := true
                 Plans := result.Plans ++
                   [{ Provides := ["maven", "jvm-application"], Requires := ["maven", "jdk"] }] })) ∧
    (∀ err, P.Stat dir (filepathJoin [context.ApplicationPath, "pom.xml"]) = .failed err →
      Maven.Detect P dir context result =
        (some (.wrap ("unable to determine if " ++
          filepathJoin [context.ApplicationPath, "pom.xml"] ++ " exists\n") err), result)) ∧
    ((∃ e, (Maven.Detect P dir context result).1 = some e) ↔
      ∃ err, P.Stat dir (filepathJoin [context.ApplicationPath, "pom.xml"]) = .failed err) := by
  refine ⟨?_, ?_, ?_, ?_⟩
  · intro h
    unfold Maven.Detect
    simp only [h]
  · intro h
    unfold Maven.Detect
    simp only [h]
  · intro err h
    unfold Maven.Detect
    simp only [h]
  · unfold Maven.Detect
    cases h : P.Stat dir (filepathJoin [context.ApplicationPath, "pom.xml"]) with
    | found => simp [h]
    | notExist => simp [h]
    | failed err => simp [h]

/-- Witness of C14: `pom.xml` exists and a plan is already present. -/
theorem maven_detect_spec_witness :
    Maven.Detect (markerPlatform ["/workspace/pom.xml"]) exampleWorld.fs.app
        { ApplicationPath := "/workspace" }
        { Pass := false, Plans := [{ Provides := ["other"], Requires := [] }] } =
      (none, { Pass := true
               Plans := [{ Provides := ["other"], Requires := [] },
                         { Provides := ["maven", "jvm-application"], Requires := ["maven", "jdk"] }] }) :=
  (maven_detect_spec (markerPlatform ["/workspace/pom.xml"]) exampleWorld.fs.app
    { ApplicationPath := "/workspace" }
    { Pass := false, Plans := [{ Provides := ["other"], Requires := [] }] }).2.1 rfl

/-! ## The order of the steps of `Application.Contribute` -/

theorem executions_cons_other (ev : Event) (evs : List Event)
    (h : ∀ e, ev ≠ Event.execute e) : executions (ev :: evs) = executions evs := by
  unfold executions
  rw [List.countP_cons]
  cases ev <;> first | rfl | exact absurd rfl (h _)

/-- Once the arguments are resolved, the function handed to the layer contributor
runs the build first: the execution is the first event it adds and the only
execution, and when the build succeeds the next event is the glob of artifact
resolution. -/
theorem contributeFunc_order (P : Platform) (a : Application) (layer : Layer) (w0 : World)
    (arguments : List String) (hargs : a.ResolveArguments P = .ok arguments) :
    ∃ rest, (a.contributeFunc P layer w0).2.trace =
        w0.trace ++ Event.execute
          { Command := a.Command, Args := arguments, Dir := a.ApplicationPath } :: rest ∧
      executions rest = 0 ∧
      (∀ fs1, a.Executor { Command := a.Command, Args := arguments, Dir := a.ApplicationPath }
          w0.fs = (none, fs1) →
        ∃ rest1, rest =
          Event.glob (filepathJoin [a.ApplicationPath, a.resolvePattern P]) :: rest1) := by
  unfold Application.contributeFunc
  simp only [hargs, log_fs]
  generalize ({ Command := a.Command, Args := arguments, Dir := a.ApplicationPath } : Execution) = e
  cases h2 : a.Executor e w0.fs with
  | mk oe fs1 =>
    cases oe with
    | some err =>
      refine ⟨[], by simp [log_trace], rfl, ?_⟩
      intro fs2 h
      cases h
    | none =>
      simp only []
      obtain ⟨paths, hp⟩ := resolveArtifact_trace P a
        { fs := fs1, trace := (w0.log (.execute e)).trace }
      generalize hG : Event.glob (filepathJoin [a.ApplicationPath, a.resolvePattern P]) = g at hp ⊢
      have hg0 : ∀ evs, executions (g :: evs) = executions evs := by
        intro evs
        apply executions_cons_other
        intro e1 h
        rw [← hG] at h
        cases h
      cases h3 : a.ResolveArtifact P { fs := fs1, trace := (w0.log (.execute e)).trace } with
      | mk r w3 =>
        rw [h3] at hp
        simp only [log_trace] at hp
        have htr : w3.trace = w0.trace ++ Event.execute e :: g :: paths.map Event.zipOpenReader := by
          rw [hp]; simp
        have hex : executions (g :: paths.map Event.zipOpenReader) = 0 := by
          rw [hg0, executions_zipOpenReader]
        cases r with
        | error err =>
          exact ⟨g :: paths.map Event.zipOpenReader, htr, hex, fun _ _ => ⟨_, rfl⟩⟩
        | ok artifact =>
          simp only []
          cases h4 : P.OpenArtifact w3.fs.app artifact with
          | error err =>
            refine ⟨g :: (paths.map Event.zipOpenReader ++ [.openFile artifact]),
              by simp [log_trace, htr], ?_, fun _ _ => ⟨_, rfl⟩⟩
            rw [hg0, executions_append, executions_zipOpenReader]
            rfl
          | ok data =>
            simp only []
            have hex2 : executions (g :: (paths.map Event.zipOpenReader ++
                [.openFile artifact, .copyFile (filepathJoin [layer.Path, "application.zip"])])) = 0 := by
              rw [hg0, executions_append, executions_zipOpenReader]
              rfl
            cases h5 : P.CopyFileError (filepathJoin [layer.Path, "application.zip"]) with
            | some err =>
              exact ⟨_, by simp [log_trace, htr], hex2, fun _ _ => ⟨_, rfl⟩⟩
            | none =>
              exact ⟨_, by simp [log_trace, htr], hex2, fun _ _ => ⟨_, rfl⟩⟩

/-- C15, counterexample. On a metadata mismatch with a build that succeeds but
leaves no artifact, artifact resolution fails, and the build command has been
run: the execution comes before the glob in the trace. -/
theorem contribute_order_counterexample :
    exampleApplication.ExpectedMetadata ≠ exampleLayer.Metadata ∧
    (exampleApplication.Contribute noArtifactPlatform exampleLayer exampleWorld).1 =
      .error (.wrap "unable to contribute application layer: "
        (.wrap "unable to resolve artifact: " (artifactNotFound "target/*.[jw]ar" []))) ∧
    (exampleApplication.Contribute noArtifactPlatform exampleLayer exampleWorld).2.trace =
      [.resetLayer "/layers/build-system/application",
       .execute { Command := "/workspace/mvnw", Args := ["-Dmaven.test.skip=true", "package"],
                  Dir := "/workspace" },
       .glob "/workspace/target/*.[jw]ar"] ∧
    executions (exampleApplication.Contribute noArtifactPlatform exampleLayer exampleWorld).2.trace
      = 1 :=
  ⟨by decide, rfl, rfl, rfl⟩

/-- C15, as amended. On a metadata mismatch, once the arguments are resolved,
`Contribute` runs the build command before it resolves the artifact location:
the execution is the first event after the layer is emptied and the only
execution, and when the build succeeds the glob of artifact resolution follows
it. So when artifact resolution fails the build command has been run once. -/
theorem contribute_executes_before_resolving (P : Platform) (a : Application) (layer : Layer)
    (w : World) (arguments : List String)
    (hmiss : a.ExpectedMetadata ≠ layer.Metadata)
    (hargs : a.ResolveArguments P = .ok arguments) :
    ∃ rest, (a.Contribute P layer w).2.trace =
        w.trace ++ Event.resetLayer layer.Path :: Event.execute
          { Command := a.Command, Args := arguments, Dir := a.ApplicationPath } :: rest ∧
      executions rest = 0 ∧
      (∀ fs1, a.Executor { Command := a.Command, Args := arguments, Dir := a.ApplicationPath }
          (resetLayer w layer.Path).fs = (none, fs1) →
        ∃ rest1, rest =
          Event.glob (filepathJoin [a.ApplicationPath, a.resolvePattern P]) :: rest1) ∧
      (∀ err, (a.Contribute P layer w).1 =
          .error (.wrap "unable to contribute application layer: "
            (.wrap "unable to resolve artifact: " err)) →
        executions ((a.Contribute P layer w).2.trace.drop w.trace.length) = 1) := by
  obtain ⟨rest, htr, hex, hglob⟩ :=
    contributeFunc_order P a layer (resetLayer w layer.Path) arguments hargs
  have hw0 : (resetLayer w layer.Path).trace = w.trace ++ [Event.resetLayer layer.Path] := rfl
  rw [hw0] at htr
  have hone : ∀ evs, executions evs = 0 →
      executions (Event.resetLayer layer.Path :: Event.execute
        { Command := a.Command, Args := arguments, Dir := a.ApplicationPath } :: evs) = 1 := by
    intro evs h0
    rw [executions_cons_other _ _ (by intro e h; cases h)]
    have := executions_append
      [Event.execute { Command := a.Command, Args := arguments, Dir := a.ApplicationPath }] evs
    simp only [List.singleton_append] at this
    rw [this, h0]
    rfl
  have key : ∃ rest2, (a.Contribute P layer w).2.trace =
      w.trace ++ Event.resetLayer layer.Path :: Event.execute
        { Command := a.Command, Args := arguments, Dir := a.ApplicationPath } :: (rest ++ rest2) ∧
      executions rest2 = 0 := by
    unfold Application.Contribute libpak.LayerContributor.Contribute
    rw [if_neg hmiss]
    cases hr : a.contributeFunc P layer (resetLayer w layer.Path) with
    | mk r w2 =>
      rw [hr] at htr
      simp only at htr
      cases r with
      | error err => exact ⟨[], by simp [htr], rfl⟩
      | ok l =>
        simp only []
        obtain ⟨⟨evs2, hevs2, hex2⟩, _⟩ :=
          replaceSource_spec P a
            { l with Metadata := mergeMetadata a.ExpectedMetadata l.Metadata } w2
        exact ⟨evs2, by rw [hevs2, htr]; simp, hex2⟩
  obtain ⟨rest2, htr2, hex2⟩ := key
  refine ⟨rest ++ rest2, htr2, by rw [executions_append, hex, hex2], ?_, ?_⟩
  · intro fs1 h
    obtain ⟨rest1, h1⟩ := hglob fs1 h
    exact ⟨rest1 ++ rest2, by rw [h1]; rfl⟩
  · intro err _
    rw [htr2, List.drop_left]
    exact hone _ (by rw [executions_append, hex, hex2])

/-- Witness of C15 as amended: a build that succeeds and leaves no artifact. -/
theorem contribute_executes_before_resolving_witness :
    exampleApplication.ExpectedMetadata ≠ exampleLayer.Metadata ∧
    ∃ rest, (exampleApplication.Contribute noArtifactPlatform exampleLayer exampleWorld).2.trace =
      exampleWorld.trace ++ Event.resetLayer exampleLayer.Path :: Event.execute
        { Command := "/workspace/mvnw", Args := ["-Dmaven.test.skip=true", "package"],
          Dir := "/workspace" } :: rest ∧
      executions rest = 0 :=
  ⟨by decide,
    (contribute_executes_before_resolving noArtifactPlatform exampleApplication exampleLayer
      exampleWorld ["-Dmaven.test.skip=true", "package"] (by decide) rfl).imp
      (fun _ h => ⟨h.1, h.2.1⟩)⟩

/-- C16. On a metadata mismatch, when the build command fails, `Contribute`
returns an error after one execution of the command: the only events are the
emptying of the layer and that execution, so nothing under the application path
is removed, no archive is copied into the layer and nothing is extracted; the
file system is the one the command left behind. -/
theorem contribute_build_failure (P : Platform) (a : Application) (layer : Layer) (w : World)
    (arguments : List String) (err : Error) (fs1 : FS)
    (hmiss : a.ExpectedMetadata ≠ layer.Metadata)
    (hargs : a.ResolveArguments P = .ok arguments)
    (hexec : a.Executor { Command := a.Command, Args := arguments, Dir := a.ApplicationPath }
      (resetLayer w layer.Path).fs = (some err, fs1)) :
    a.Contribute P layer w =
      (.error (.wrap "unable to contribute application layer: "
          (.wrap "error running build: " err)),
        { fs := fs1
          trace := w.trace ++ [Event.resetLayer layer.Path, Event.execute
            { Command := a.Command, Args := arguments, Dir := a.ApplicationPath }] }) ∧
    executions ((a.Contribute P layer w).2.trace.drop w.trace.length) = 1 ∧
    (∀ path, Event.removeAll path ∉ (a.Contribute P layer w).2.trace.drop w.trace.length) ∧
    (∀ dst, Event.copyFile dst ∉ (a.Contribute P layer w).2.trace.drop w.trace.length) ∧
    (∀ src dst, Event.extractZip src dst ∉
      (a.Contribute P layer w).2.trace.drop w.trace.length) := by
  have h : a.Contribute P layer w =
      (.error (.wrap "unable to contribute application layer: "
          (.wrap "error running build: " err)),
        { fs := fs1
          trace := w.trace ++ [Event.resetLayer layer.Path, Event.execute
            { Command := a.Command, Args := arguments, Dir := a.ApplicationPath }] }) := by
    unfold Application.Contribute libpak.LayerContributor.Contribute
    rw [if_neg hmiss]
    unfold Application.contributeFunc
    simp only [hargs, log_fs, hexec]
    simp [World.log, resetLayer]
  refine ⟨h, ?_, ?_, ?_, ?_⟩ <;> rw [h] <;> simp [executions]

/-- Witness of C16: the build command of the example application exits with status 1. -/
theorem contribute_build_failure_witness :
    failingBuildApplication.ExpectedMetadata ≠ exampleLayer.Metadata ∧
    (failingBuildApplication.Contribute noArtifactPlatform exampleLayer exampleWorld).1 =
      .error (.wrap "unable to contribute application layer: "
        (.wrap "error running build: " (.leaf "exit status 1"))) ∧
    (failingBuildApplication.Contribute noArtifactPlatform exampleLayer exampleWorld).2.fs.app
      = exampleWorld.fs.app :=
  ⟨by decide,
    congrArg Prod.fst (contribute_build_failure noArtifactPlatform failingBuildApplication
      exampleLayer exampleWorld ["-Dmaven.test.skip=true", "package"] (.leaf "exit status 1")
      (resetLayer exampleWorld exampleLayer.Path).fs (by decide) rfl rfl).1,
    rfl⟩

end BuildSystem
